import Mathlib

/-!
Shallow embedding of the offline conversation engine of the SoulSync repository
(`processOfflineMessage` in `src/index.tsx`, image search from `src/services/db.ts`).

Modelling conventions:
* JavaScript strings are Lean `String`s; `toLowerCase`, `trim`, `includes` and the
  tokenizer's regexes are modelled character-by-character for the ASCII range.
* `Math.random()` driven choices are modelled by an explicit stream of natural
  numbers (`rands`); each call of `getRandomElement` on a non-empty list consumes
  one number and indexes the list with it modulo the length.
* The asynchronous image store (`searchImages`) is passed in as a function
  returning `Except Unit (List DBImage)`; `Except.error` models a thrown
  exception, which the engine catches exactly where the source has `try/catch`.
* JS truthiness of the optional string fields is modelled by comparing with `""`
  (absent fields are encoded as `""` resp. `none`).
* Fractional match scores are modelled with exact rationals `ℚ`.
-/

namespace SoulSync

/-! ### String helpers (ASCII model of the JS string operations) -/

def jsIsWs (c : Char) : Bool :=
  c == ' ' || c == '\t' || c == '\n' || c == '\r'

def charLower (c : Char) : Char :=
  if 'A' ≤ c ∧ c ≤ 'Z' then Char.ofNat (c.toNat + 32) else c

def jsToLower (s : String) : String :=
  String.mk (s.data.map charLower)

def jsTrim (s : String) : String :=
  String.mk (((s.data.dropWhile jsIsWs).reverse.dropWhile jsIsWs).reverse)

/-- `sub` occurs as a contiguous run inside `s` (at the front, or inside the tail). -/
def isSubstring (sub : List Char) : List Char → Bool
  | [] => sub.isEmpty
  | c :: t => sub.isPrefixOf (c :: t) || isSubstring sub t

/-- JS `s.includes(sub)`: `sub` occurs as a contiguous substring of `s`. -/
def includes (s sub : String) : Bool :=
  isSubstring sub.data s.data

/-- The punctuation class of the tokenizer's regex in `src/index.tsx`. -/
def punctChars : List Char :=
  ['.', ',', '/', '#', '!', '$', '%', '^', '&', '*', ';', ':',
   Char.ofNat 123, Char.ofNat 125, '=', '-', '_', Char.ofNat 96, '~', '(', ')', '?']

/-- Split a character list on whitespace, dropping empty pieces; `acc` holds the
current (reversed) token.  This is `.trim().split(/\s+/).filter(w => w.length > 0)`. -/
def splitOnWsAux : List Char → List Char → List (List Char)
  | [], acc => if acc = [] then [] else [acc.reverse]
  | c :: rest, acc =>
    if jsIsWs c then
      if acc = [] then splitOnWsAux rest []
      else acc.reverse :: splitOnWsAux rest []
    else splitOnWsAux rest (c :: acc)

/-- `tokenize` from `src/index.tsx`: lowercase, punctuation to spaces, split on
whitespace, drop empty tokens. -/
def tokenize (text : String) : List String :=
  let chars := (jsToLower text).data.map (fun c => if punctChars.contains c then ' ' else c)
  (splitOnWsAux chars []).map String.mk

/-! ### Data model -/

structure TrainingResponse where
  text : String := ""
  timeOfDay : String := ""
deriving DecidableEq, Repr

structure TrainingPair where
  id : String := ""
  type : String := "text"
  inputPattern : String := ""
  inputPatterns : List String := []
  responses : List TrainingResponse := []
  response : String := ""
  imageTag : String := ""
  audioData : String := ""
deriving DecidableEq, Repr

structure LogicRule where
  id : String := ""
  name : String := ""
  monitor : String := ""
  target : String := ""
  threshold : Nat := 0
  action : String := ""
  actionPayload : String := ""
  resetOnTrigger : Bool := false
deriving DecidableEq, Repr

structure CoreIdentity where
  name : String := ""
  occupation : String := ""
  backstory : String := ""
deriving DecidableEq, Repr

structure NeuralMap where
  coreIdentity : CoreIdentity := {}
  customTraining : List TrainingPair := []
  logicRules : List LogicRule := []
deriving DecidableEq, Repr

structure Memory where
  waitingForDefinition : Option String := none
  lastSentImageIds : List String := []
  logicCounts : List (String × Nat) := []
deriving DecidableEq, Repr

structure PersonaProfile where
  id : String := ""
  name : String := ""
  neuralMap : NeuralMap := {}
  memory : Memory := {}
deriving DecidableEq, Repr

structure DBImage where
  id : String := ""
  personaId : String := ""
  data : String := ""
  tags : List String := []
  description : String := ""
deriving DecidableEq, Repr

inductive MessageRole where
  | user
  | model
deriving DecidableEq, BEq, Repr

structure Message where
  role : MessageRole
  content : String
deriving DecidableEq, Repr

inductive MessageType where
  | text
  | image
  | audio
deriving DecidableEq, BEq, Repr

structure ProcResult where
  text : String
  image : Option String
  audio : Option String
  updatedPersona : PersonaProfile
deriving DecidableEq, Repr

/-! ### Helpers from `src/index.tsx` and `src/services/db.ts` -/

def getTimeGreeting (hour : Nat) : String :=
  if hour < 5 then "Good late night"
  else if hour < 12 then "Good morning"
  else if hour < 18 then "Good afternoon"
  else "Good evening"

def getCurrentTimePhase (hour : Nat) : String :=
  if 5 ≤ hour ∧ hour < 12 then "morning"
  else if 12 ≤ hour ∧ hour < 17 then "afternoon"
  else if 17 ≤ hour ∧ hour < 23 then "evening"
  else "lateNight"

/-- `getRandomElement`: picks a random element of a non-empty list and consumes one
random number; on an empty list it returns `none` and consumes nothing. -/
def getRandomElement {α : Type} (arr : List α) (rands : List Nat) : Option α × List Nat :=
  if arr.isEmpty then (none, rands)
  else (arr.get? (rands.headD 0 % arr.length), rands.tail)

/-- `searchImages` from `src/services/db.ts`: all images of the persona whose tag
list contains one of the requested tags or whose lowercased description contains it. -/
def searchImages (store : List DBImage) (personaId : String) (tags : List String) :
    List DBImage :=
  (store.filter (fun img => img.personaId == personaId)).filter
    (fun img => tags.any (fun t => img.tags.contains t || includes (jsToLower img.description) t))

/-- The last message authored by the model, from the history (computed by the
source but not used for any branching). -/
def lastBotText (history : List Message) : Option String :=
  (history.reverse.find? (fun m => m.role == MessageRole.model)).map (fun m => m.content)

def audioResponses : List String :=
  ["I love hearing your voice! Can you tell me what you just said in text?",
   "You have such a nice voice. What was that about?",
   "I wish I could speak back to you like that. Type that out for me?",
   "Received your voice note. Sounds clear! What\x27s on your mind?",
   "I\x27m listening, but my audio processor is a bit slow. Can you text me that?"]

def askPrompt : String :=
  "I honestly don\x27t know how to answer that yet! Can you teach me? What should I say when you ask that?"

def thankYouMsg : String :=
  "Got it. I\x27ve saved that in my memory. What else should I know?"

def howAreYouOptions : List String :=
  ["I\x27m doing great, thanks for asking!",
   "Systems functional and ready to chat.",
   "I\x27m feeling... electric.",
   "I\x27m good! How are you?"]

/-! ### Rule matching (phase 2 of `processOfflineMessage`) -/

/-- The trigger phrases considered for a rule: `inputPatterns` when non-empty,
else the singleton legacy `inputPattern` when present. -/
def patternsOf (rule : TrainingPair) : List String :=
  if rule.inputPatterns ≠ [] then rule.inputPatterns
  else if rule.inputPattern ≠ "" then [rule.inputPattern] else []

/-- Score of one trigger phrase against the message.  A phrase with no tokens is
skipped by the source (`continue`), which is the same as contributing score 0. -/
def scorePattern (lowerMsg : String) (userTokens : List String) (pattern : String) : ℚ :=
  let ruleTokens := tokenize pattern
  if ruleTokens.length = 0 then 0
  else
    let lowerRule := jsTrim (jsToLower pattern)
    if includes lowerMsg lowerRule then 1000 + ruleTokens.length
    else
      let matchCount := (ruleTokens.filter (fun t => userTokens.contains t)).length
      let coverage : ℚ := (matchCount : ℚ) / (ruleTokens.length : ℚ)
      let requiredCoverage : ℚ := if ruleTokens.length ≤ 3 then 1 else 3/4
      if coverage ≥ requiredCoverage then coverage * 100 + matchCount else 0

/-- A rule's score: the maximum of its phrase scores, starting from 0. -/
def ruleMaxScore (lowerMsg : String) (userTokens : List String) (rule : TrainingPair) : ℚ :=
  (patternsOf rule).foldl
    (fun m p => let s := scorePattern lowerMsg userTokens p; if s > m then s else m) 0

structure BestMatches where
  bestText : Option (TrainingPair × ℚ)
  bestImage : Option (TrainingPair × ℚ)
  bestAudio : Option (TrainingPair × ℚ)
deriving DecidableEq, Repr

/-- Keep the incumbent unless the new score is strictly higher (first wins on ties). -/
def updBest (cur : Option (TrainingPair × ℚ)) (rule : TrainingPair) (s : ℚ) :
    Option (TrainingPair × ℚ) :=
  match cur with
  | none => some (rule, s)
  | some (r0, s0) => if s > s0 then some (rule, s) else some (r0, s0)

def considerRule (lowerMsg : String) (userTokens : List String) (b : BestMatches)
    (rule : TrainingPair) : BestMatches :=
  let s := ruleMaxScore lowerMsg userTokens rule
  if s > 0 then
    if rule.type = "text" then { b with bestText := updBest b.bestText rule s }
    else if rule.type = "image_trigger" then { b with bestImage := updBest b.bestImage rule s }
    else if rule.type = "audio_trigger" then { b with bestAudio := updBest b.bestAudio rule s }
    else b
  else b

def findBestMatches (lowerMsg : String) (userTokens : List String)
    (rules : List TrainingPair) : BestMatches :=
  rules.foldl (considerRule lowerMsg userTokens) ⟨none, none, none⟩

/-! ### Executing the winning rules -/

structure TurnState where
  responseText : String
  responseImage : Option String
  responseAudio : Option String
  lastSentImageIds : List String
  eventTags : List String
  rands : List Nat
deriving DecidableEq, Repr

def filterByTime (responses : List TrainingResponse) (phase : String) :
    List TrainingResponse :=
  responses.filter (fun r => r.timeOfDay = "" ∨ r.timeOfDay = "any" ∨ r.timeOfDay = phase)

def execTextRule (currentPhase : String) (st : TurnState) (rule : TrainingPair) : TurnState :=
  let candidates := filterByTime rule.responses currentPhase
  let candidates :=
    if candidates.isEmpty ∧ ¬ rule.responses.isEmpty then rule.responses
    else if candidates.isEmpty ∧ rule.response ≠ "" then
      [{ text := rule.response, timeOfDay := "any" }]
    else candidates
  if candidates.isEmpty then st
  else
    let pick := getRandomElement candidates st.rands
    match pick.1 with
    | some r => { st with responseText := r.text, rands := pick.2 }
    | none => { st with rands := pick.2 }

structure PickResult where
  sel : Option DBImage
  seen : List String
  rands : List Nat
deriving DecidableEq, Repr

/-- Anti-repetition image selection (`src/index.tsx` lines 545-557): drop already
seen candidates; if nothing remains, forget exactly this tag's ids and pick among
all candidates; append the chosen id. -/
def pickImage (taggedImages : List DBImage) (seenIds : List String) (rands : List Nat) :
    PickResult :=
  let pair :=
    let candidates := taggedImages.filter (fun img => !(seenIds.contains img.id))
    if candidates.isEmpty then
      (taggedImages,
       seenIds.filter (fun i => !((taggedImages.map (fun im => im.id)).contains i)))
    else (candidates, seenIds)
  let pick := getRandomElement pair.1 rands
  match pick.1 with
  | some img => { sel := some img, seen := pair.2 ++ [img.id], rands := pick.2 }
  | none => { sel := none, seen := seenIds, rands := pick.2 }

def execImageRule (pid : String)
    (searchFn : String → List String → Except Unit (List DBImage))
    (currentPhase : String) (st : TurnState) (rule : TrainingPair) : TurnState :=
  let candidates := filterByTime rule.responses currentPhase
  let candidates :=
    if candidates.isEmpty ∧ ¬ rule.responses.isEmpty then rule.responses else candidates
  let st :=
    if candidates.isEmpty then st
    else
      let pick := getRandomElement candidates st.rands
      let st := { st with rands := pick.2 }
      match pick.1 with
      | some r =>
        if r.text ≠ "" ∧ st.responseText = "" then { st with responseText := r.text } else st
      | none => st
  if rule.imageTag = "" then st
  else
    match searchFn pid [rule.imageTag] with
    | Except.error _ => st
    | Except.ok taggedImages =>
      if taggedImages.isEmpty then st
      else
        let pr := pickImage taggedImages st.lastSentImageIds st.rands
        match pr.sel with
        | some img =>
          { st with
            responseImage := some img.data, lastSentImageIds := pr.seen,
            eventTags := st.eventTags ++ [rule.imageTag], rands := pr.rands }
        | none => { st with rands := pr.rands }

def execAudioRule (st : TurnState) (rule : TrainingPair) : TurnState :=
  if rule.audioData = "" then st
  else
    let st := { st with responseAudio := some rule.audioData }
    if st.responseText ≠ "" then st
    else
      if rule.responses.isEmpty then st
      else
        let pick := getRandomElement rule.responses st.rands
        let st := { st with rands := pick.2 }
        match pick.1 with
        | some r =>
          if r.text ≠ "" ∧ r.text ≠ "(Audio Message)" then { st with responseText := r.text }
          else st
        | none => st

/-- Phase 2: find the three per-kind winners and execute them in order
text, image, audio. -/
def phase2 (pid : String) (searchFn : String → List String → Except Unit (List DBImage))
    (currentPhase lowerMsg : String) (userTokens : List String)
    (customTraining : List TrainingPair) (lastSent : List String) (rands : List Nat) :
    TurnState :=
  let st0 : TurnState :=
    { responseText := "", responseImage := none, responseAudio := none,
      lastSentImageIds := lastSent, eventTags := [], rands := rands }
  if customTraining.isEmpty then st0
  else
    let b := findBestMatches lowerMsg userTokens customTraining
    let st := match b.bestText with
      | some rs => execTextRule currentPhase st0 rs.1
      | none => st0
    let st := match b.bestImage with
      | some rs => execImageRule pid searchFn currentPhase st rs.1
      | none => st
    match b.bestAudio with
    | some rs => execAudioRule st rs.1
    | none => st

/-! ### The logic engine (counters and threshold rules) -/

def lookupCount (st : List (String × Nat)) (k : String) : Nat :=
  match st.find? (fun p => p.1 == k) with
  | some p => p.2
  | none => 0

def setCount : List (String × Nat) → String → Nat → List (String × Nat)
  | [], k, v => [(k, v)]
  | (k', v') :: rest, k, v =>
    if k' == k then (k, v) :: rest else (k', v') :: setCount rest k v

def incCount (st : List (String × Nat)) (k : String) : List (String × Nat) :=
  setCount st k (lookupCount st k + 1)

/-- The per-turn tally: every user token bumps `kw_<token>`, every image tag sent
this turn bumps `tag_<tag>`. -/
def updateCounts (st : List (String × Nat)) (tokens tags : List String) :
    List (String × Nat) :=
  let st := tokens.foldl (fun s tok => incCount s ("kw_" ++ tok)) st
  tags.foldl (fun s tag => incCount s ("tag_" ++ tag)) st

structure LogicState where
  counts : List (String × Nat)
  responseText : String
  responseImage : Option String
  responseAudio : Option String
  rands : List Nat
  conditionTriggered : Bool
deriving DecidableEq, Repr

def logicStep (pid : String)
    (searchFn : String → List String → Except Unit (List DBImage))
    (ls : LogicState) (rule : LogicRule) : LogicState :=
  let kc :=
    if rule.monitor = "user_says_keyword" then
      let k := "kw_" ++ jsToLower rule.target
      (k, lookupCount ls.counts k)
    else if rule.monitor = "bot_sends_imagetag" then
      let k := "tag_" ++ jsToLower rule.target
      (k, lookupCount ls.counts k)
    else ("", 0)
  let key := kc.1
  let currentCount := kc.2
  if currentCount > 0 ∧ currentCount ≥ rule.threshold then
    let ls := { ls with conditionTriggered := true }
    let ls :=
      if rule.action = "send_text" then
        if ls.responseText ≠ "" then
          { ls with responseText := ls.responseText ++ " " ++ rule.actionPayload }
        else { ls with responseText := rule.actionPayload }
      else if rule.action = "send_image_tag" then
        match searchFn pid [rule.actionPayload] with
        | Except.error _ => ls
        | Except.ok taggedImages =>
          let pick := getRandomElement taggedImages ls.rands
          let ls := { ls with rands := pick.2 }
          match pick.1 with
          | some img => { ls with responseImage := some img.data }
          | none => ls
      else if rule.action = "send_audio" then { ls with responseAudio := some rule.actionPayload }
      else ls
    if rule.resetOnTrigger then { ls with counts := setCount ls.counts key 0 } else ls
  else ls

/-- The whole logic block: update the tally, then evaluate every rule in order. -/
def runLogic (pid : String)
    (searchFn : String → List String → Except Unit (List DBImage))
    (logicRules : List LogicRule) (counts0 : List (String × Nat))
    (userTokens eventTags : List String) (text0 : String) (img0 aud0 : Option String)
    (rands : List Nat) : LogicState :=
  let state := updateCounts counts0 userTokens eventTags
  logicRules.foldl (logicStep pid searchFn)
    { counts := state, responseText := text0, responseImage := img0,
      responseAudio := aud0, rands := rands, conditionTriggered := false }

/-! ### Fallback intent classifiers (phase 3) -/

def greetWords : List String :=
  ["hey", "hi", "hello", "yo", "greetings", "hola", "heya", "howdy"]

def greetingTest (lowerMsg : String) : Bool :=
  greetWords.any (fun g =>
    g.data.isPrefixOf lowerMsg.data &&
    (match lowerMsg.data.drop g.data.length with
     | [] => true
     | c :: _ => jsIsWs c || c == '!' || c == '.' || c == '?'))

def goodTimeTest (lowerMsg : String) : Bool :=
  ["good morning", "good afternoon", "good evening", "good night"].any
    (fun p => includes lowerMsg p)

def howAreYouTest (lowerMsg : String) : Bool :=
  ["how are you", "how are u", "how r you", "how r u",
   "how\x27s it going", "hows it going",
   "how\x27s everything going", "hows everything going",
   "how are things", "how r things"].any (fun p => includes lowerMsg p)

/-! ### The conversation engine -/

/-- Step 3 wrapper: when the persona has logic rules, run the logic engine and
fold its outputs back into the turn state; otherwise leave the counters alone
(the source guards the whole block, counter update included, with
`map.logicRules.length > 0`). -/
def applyLogic (pid : String)
    (searchFn : String → List String → Except Unit (List DBImage))
    (logicRules : List LogicRule) (counts0 : List (String × Nat))
    (userTokens : List String) (st1 : TurnState) : List (String × Nat) × TurnState :=
  if logicRules.isEmpty then (counts0, st1)
  else
    let ls := runLogic pid searchFn logicRules counts0
      userTokens st1.eventTags st1.responseText st1.responseImage
      st1.responseAudio st1.rands
    let st' : TurnState :=
      { st1 with
        responseText := ls.responseText, responseImage := ls.responseImage,
        responseAudio := ls.responseAudio, rands := ls.rands }
    (ls.counts, st')

/-- Phase 3 (fallback conversation) and the final assembly of the response
bundle, given the turn state after rule matching and logic evaluation. -/
def finishTurn (persona : PersonaProfile) (messageContent lowerMsg timeGreeting : String)
    (coreName : String) (newCounts : List (String × Nat)) (st : TurnState) : ProcResult :=
  let memory1 :=
    { persona.memory with
      logicCounts := newCounts, lastSentImageIds := st.lastSentImageIds }
  if st.responseText = "" ∧ st.responseImage.getD "" = "" ∧ st.responseAudio.getD "" = "" then
    if greetingTest lowerMsg then
      let opts := [timeGreeting ++ "! " ++ coreName ++ " here.",
                   "Hey! Good to see you.", "Hello there!", "Hi! I\x27m ready to chat."]
      { text := (getRandomElement opts st.rands).1.getD "",
        image := st.responseImage, audio := st.responseAudio,
        updatedPersona := { persona with memory := memory1 } }
    else if goodTimeTest lowerMsg then
      { text := timeGreeting ++ "! Hope you\x27re doing well.",
        image := st.responseImage, audio := st.responseAudio,
        updatedPersona := { persona with memory := memory1 } }
    else if howAreYouTest lowerMsg then
      { text := (getRandomElement howAreYouOptions st.rands).1.getD "",
        image := st.responseImage, audio := st.responseAudio,
        updatedPersona := { persona with memory := memory1 } }
    else
      { text := askPrompt, image := none, audio := none,
        updatedPersona :=
          { persona with
            memory := { memory1 with waitingForDefinition := some messageContent } } }
  else
    { text := st.responseText, image := st.responseImage, audio := st.responseAudio,
      updatedPersona := { persona with memory := memory1 } }

/-- `processOfflineMessage` from `src/index.tsx`.  `hour` models the wall clock,
`nowId` models `Date.now().toString()`, `searchFn` the image store and `rands`
the random number stream. -/
def processOfflineMessage (persona : PersonaProfile) (messageContent : String)
    (messageType : MessageType) (history : List Message) (hour : Nat) (nowId : String)
    (searchFn : String → List String → Except Unit (List DBImage))
    (rands : List Nat) : ProcResult :=
  let map := persona.neuralMap
  let memory := persona.memory
  let timeGreeting := getTimeGreeting hour
  let currentPhase := getCurrentTimePhase hour
  -- computed by the source from the history but never used for branching
  let _lastBotText := lastBotText history
  if messageType = MessageType.audio then
    { text := (getRandomElement audioResponses rands).1.getD "",
      image := none, audio := none, updatedPersona := persona }
  else
    let lowerMsg := jsTrim (jsToLower messageContent)
    let userTokens := tokenize messageContent
    if memory.waitingForDefinition.getD "" ≠ "" then
      let questionToLearn := memory.waitingForDefinition.getD ""
      let newRule : TrainingPair :=
        { id := nowId, type := "text", inputPattern := questionToLearn,
          inputPatterns := [questionToLearn],
          responses := [{ text := messageContent, timeOfDay := "any" }] }
      { text := thankYouMsg, image := none, audio := none,
        updatedPersona :=
          { persona with
            neuralMap := { map with customTraining := map.customTraining ++ [newRule] },
            memory := { memory with waitingForDefinition := none } } }
    else
      let st1 := phase2 persona.id searchFn currentPhase lowerMsg userTokens
        map.customTraining memory.lastSentImageIds rands
      let next := applyLogic persona.id searchFn map.logicRules memory.logicCounts
        userTokens st1
      finishTurn persona messageContent lowerMsg timeGreeting map.coreIdentity.name
        next.1 next.2

/-! ## Shared helper lemmas -/

lemma getRandomElement_getD_mem {α : Type} (arr : List α) (d : α) (rands : List Nat)
    (h : arr ≠ []) : ((getRandomElement arr rands).1.getD d) ∈ arr := by
  unfold getRandomElement
  rw [if_neg (by simpa using h)]
  have hlt : rands.headD 0 % arr.length < arr.length :=
    Nat.mod_lt _ (List.length_pos.mpr h)
  cases h' : arr.get? (rands.headD 0 % arr.length) with
  | none => rw [List.get?_eq_none] at h'; omega
  | some a => simpa using List.get?_mem h'

lemma getRandomElement_of_ne_nil {α : Type} (arr : List α) (rands : List Nat)
    (h : arr ≠ []) : ∃ a ∈ arr, getRandomElement arr rands = (some a, rands.tail) := by
  unfold getRandomElement
  rw [if_neg (by simpa using h)]
  have hlt : rands.headD 0 % arr.length < arr.length :=
    Nat.mod_lt _ (List.length_pos.mpr h)
  cases h' : arr.get? (rands.headD 0 % arr.length) with
  | none => rw [List.get?_eq_none] at h'; omega
  | some a => exact ⟨a, List.get?_mem h', rfl⟩

/-- The collaborating image store used by the counterexamples: a fixed list of
stored images, never failing. -/
def okStore (store : List DBImage) : String → List String → Except Unit (List DBImage) :=
  fun pid tags => Except.ok (searchImages store pid tags)

/-- An image store whose every query throws. -/
def errStore : String → List String → Except Unit (List DBImage) :=
  fun _ _ => Except.error ()

/-- An image store that never finds anything. -/
def emptyStore : String → List String → Except Unit (List DBImage) :=
  fun _ _ => Except.ok []

lemma execTextRule_responseImage (currentPhase : String) (st : TurnState)
    (rule : TrainingPair) : (execTextRule currentPhase st rule).responseImage
      = st.responseImage := by
  unfold execTextRule
  dsimp only
  repeat' split
  all_goals rfl

lemma execImageRule_emptyStore_responseImage (pid currentPhase : String) (st : TurnState)
    (rule : TrainingPair) :
    (execImageRule pid emptyStore currentPhase st rule).responseImage
      = st.responseImage := by
  unfold execImageRule emptyStore
  dsimp only
  repeat' split
  all_goals first | rfl | simp_all

lemma execAudioRule_responseImage (st : TurnState) (rule : TrainingPair) :
    (execAudioRule st rule).responseImage = st.responseImage := by
  unfold execAudioRule
  dsimp only
  repeat' split
  all_goals rfl

lemma phase2_emptyStore_responseImage (pid currentPhase lowerMsg : String)
    (userTokens : List String) (customTraining : List TrainingPair)
    (lastSent : List String) (rands : List Nat) :
    (phase2 pid emptyStore currentPhase lowerMsg userTokens customTraining
      lastSent rands).responseImage = none := by
  unfold phase2
  dsimp only
  split
  · rfl
  · split <;> split <;> split <;>
      simp [execAudioRule_responseImage, execImageRule_emptyStore_responseImage,
            execTextRule_responseImage]

lemma logicStep_emptyStore_responseImage (pid : String) (ls : LogicState)
    (rule : LogicRule) :
    (logicStep pid emptyStore ls rule).responseImage = ls.responseImage := by
  unfold logicStep emptyStore
  dsimp only
  repeat' split
  all_goals first | rfl | simp_all [getRandomElement]

lemma foldl_logicStep_emptyStore_responseImage (pid : String) :
    ∀ (rules : List LogicRule) (ls : LogicState),
      (rules.foldl (logicStep pid emptyStore) ls).responseImage = ls.responseImage
  | [], _ => rfl
  | r :: rest, ls => by
    rw [List.foldl_cons, foldl_logicStep_emptyStore_responseImage pid rest]
    exact logicStep_emptyStore_responseImage pid ls r

lemma runLogic_emptyStore_responseImage (pid : String) (logicRules : List LogicRule)
    (counts0 : List (String × Nat)) (userTokens eventTags : List String)
    (text0 : String) (img0 aud0 : Option String) (rands : List Nat) :
    (runLogic pid emptyStore logicRules counts0 userTokens eventTags
      text0 img0 aud0 rands).responseImage = img0 := by
  unfold runLogic
  rw [foldl_logicStep_emptyStore_responseImage]

lemma finishTurn_image_none (persona : PersonaProfile)
    (messageContent lowerMsg timeGreeting coreName : String)
    (newCounts : List (String × Nat)) (st : TurnState)
    (h : st.responseImage = none) :
    (finishTurn persona messageContent lowerMsg timeGreeting coreName
      newCounts st).image = none := by
  unfold finishTurn
  dsimp only
  repeat' split
  all_goals simp [h]

lemma applyLogic_emptyStore_responseImage (pid : String) (logicRules : List LogicRule)
    (counts0 : List (String × Nat)) (userTokens : List String) (st1 : TurnState) :
    ((applyLogic pid emptyStore logicRules counts0 userTokens st1).2).responseImage
      = st1.responseImage := by
  unfold applyLogic
  dsimp only
  split
  · rfl
  · simp [runLogic_emptyStore_responseImage]

/-! ## Claim C8 -/

/-- C8: on every audio-kind invocation, `processOfflineMessage` returns one of the
five fixed canned replies about being unable to transcribe audio, produces no
image and no audio output, and returns the input persona unchanged; no pending
definition resolution, rule matching, logic evaluation, counter update or
fallback classification happens (the persona, and in particular its rules and
counters, is returned identical). -/
theorem c8_audio_intercepted (persona : PersonaProfile) (msg : String)
    (hist : List Message) (hour : Nat) (nowId : String)
    (searchFn : String → List String → Except Unit (List DBImage)) (rands : List Nat) :
    (processOfflineMessage persona msg MessageType.audio hist hour nowId searchFn rands).text
        ∈ audioResponses ∧
    audioResponses.length = 5 ∧
    (processOfflineMessage persona msg MessageType.audio hist hour nowId searchFn rands).image
        = none ∧
    (processOfflineMessage persona msg MessageType.audio hist hour nowId searchFn rands).audio
        = none ∧
    (processOfflineMessage persona msg MessageType.audio hist hour nowId searchFn rands).updatedPersona
        = persona := by
  refine ⟨?_, rfl, rfl, rfl, rfl⟩
  unfold processOfflineMessage
  rw [if_pos rfl]
  exact getRandomElement_getD_mem _ _ _ (by decide)

/-! ## Claim C9 -/

/-- C9: a throwing Image Store query is caught locally and never propagated: the
run with a store whose every query throws is identical to the run with a store
that finds nothing, and in particular the turn still returns a complete response
bundle carrying no image from the failed queries. -/
theorem c9_store_failure_swallowed (persona : PersonaProfile) (msg : String)
    (mt : MessageType) (hist : List Message) (hour : Nat) (nowId : String)
    (rands : List Nat) :
    processOfflineMessage persona msg mt hist hour nowId errStore rands
      = processOfflineMessage persona msg mt hist hour nowId emptyStore rands ∧
    (processOfflineMessage persona msg mt hist hour nowId errStore rands).image = none := by
  refine ⟨rfl, ?_⟩
  show (processOfflineMessage persona msg mt hist hour nowId emptyStore rands).image = none
  unfold processOfflineMessage
  dsimp only
  split
  · rfl
  · split
    · rfl
    · refine finishTurn_image_none _ _ _ _ _ _ _ ?_
      rw [applyLogic_emptyStore_responseImage, phase2_emptyStore_responseImage]

/-! ## Claim C10 -/

lemma finishTurn_frame (persona : PersonaProfile)
    (messageContent lowerMsg timeGreeting coreName : String)
    (newCounts : List (String × Nat)) (st : TurnState) :
    (finishTurn persona messageContent lowerMsg timeGreeting coreName
        newCounts st).updatedPersona.neuralMap = persona.neuralMap ∧
    (finishTurn persona messageContent lowerMsg timeGreeting coreName
        newCounts st).updatedPersona.id = persona.id ∧
    (finishTurn persona messageContent lowerMsg timeGreeting coreName
        newCounts st).updatedPersona.name = persona.name := by
  unfold finishTurn
  dsimp only
  repeat' split
  all_goals exact ⟨rfl, rfl, rfl⟩

/-- C10 (frame property): on a text-kind invocation with no pending definition,
the returned persona differs from the input at most in its `memory` fields: the
neural map (trained rules, logic rules and identity block included) and the
persona's top-level identity are returned unchanged. -/
theorem c10_frame_property (persona : PersonaProfile) (msg : String)
    (hist : List Message) (hour : Nat) (nowId : String)
    (searchFn : String → List String → Except Unit (List DBImage)) (rands : List Nat)
    (h : persona.memory.waitingForDefinition = none) :
    (processOfflineMessage persona msg MessageType.text hist hour nowId searchFn
        rands).updatedPersona.neuralMap = persona.neuralMap ∧
    (processOfflineMessage persona msg MessageType.text hist hour nowId searchFn
        rands).updatedPersona.id = persona.id ∧
    (processOfflineMessage persona msg MessageType.text hist hour nowId searchFn
        rands).updatedPersona.name = persona.name := by
  unfold processOfflineMessage
  rw [if_neg (by decide : ¬(MessageType.text = MessageType.audio))]
  rw [if_neg (by simp [h])]
  exact finishTurn_frame ..

/-- A small concrete persona used to instantiate the hypothesis-bearing theorems. -/
def witnessPersona : PersonaProfile :=
  { id := "p1", name := "Sam",
    neuralMap :=
      { coreIdentity := { name := "Sam", occupation := "friend", backstory := "bio" },
        customTraining :=
          [{ id := "r1", type := "text", inputPatterns := ["magic word"],
             responses := [{ text := "abracadabra", timeOfDay := "any" }] }],
        logicRules := [] },
    memory := {} }

theorem c10_frame_property_witness :
    (processOfflineMessage witnessPersona "magic word" MessageType.text [] 10 "7"
        emptyStore [0]).updatedPersona.neuralMap = witnessPersona.neuralMap ∧
    (processOfflineMessage witnessPersona "magic word" MessageType.text [] 10 "7"
        emptyStore [0]).updatedPersona.id = witnessPersona.id ∧
    (processOfflineMessage witnessPersona "magic word" MessageType.text [] 10 "7"
        emptyStore [0]).updatedPersona.name = witnessPersona.name :=
  c10_frame_property witnessPersona "magic word" [] 10 "7" emptyStore [0] rfl

/-! ## Claim C5 -/

/-- C5: for a trigger phrase of `n` tokens considered only for fuzzy matching
(no verbatim substring hit): with `n ≤ 3` it matches exactly when all of its
tokens occur in the message, with `n ≥ 4` exactly when at least 75 percent do;
a matching phrase scores `coverage * 100 + matchedTokenCount` and a phrase
below the threshold scores 0. -/
theorem c5_coverage_threshold (lowerMsg : String) (userTokens : List String) (p : String)
    (n m : Nat) (hn : n = (tokenize p).length)
    (hm : m = ((tokenize p).filter (fun t => userTokens.contains t)).length)
    (hne : n ≠ 0)
    (hfz : includes lowerMsg (jsTrim (jsToLower p)) = false) :
    (n ≤ 3 → (scorePattern lowerMsg userTokens p ≠ 0 ↔ m = n)) ∧
    (4 ≤ n → (scorePattern lowerMsg userTokens p ≠ 0 ↔ 3 * n ≤ 4 * m)) ∧
    (scorePattern lowerMsg userTokens p ≠ 0 →
      scorePattern lowerMsg userTokens p = (m : ℚ) / (n : ℚ) * 100 + m) ∧
    (((n ≤ 3 ∧ m ≠ n) ∨ (4 ≤ n ∧ 4 * m < 3 * n)) →
      scorePattern lowerMsg userTokens p = 0) := by
  have hmn : m ≤ n := by
    rw [hn, hm]; exact List.length_filter_le _ _
  have hnpos : 0 < n := Nat.pos_of_ne_zero hne
  have hnq : (0 : ℚ) < (n : ℚ) := by exact_mod_cast hnpos
  unfold scorePattern
  rw [if_neg (by omega : ¬((tokenize p).length = 0)), if_neg (by simp [hfz])]
  dsimp only
  rw [← hn, ← hm]
  have hcov1 : ((m : ℚ) / (n : ℚ) ≥ 1) ↔ m = n := by
    rw [ge_iff_le, le_div_iff₀ hnq, one_mul]
    constructor
    · intro h; exact le_antisymm hmn (by exact_mod_cast h)
    · intro h; exact_mod_cast h.ge
  have hcov34 : ((m : ℚ) / (n : ℚ) ≥ 3 / 4) ↔ 3 * n ≤ 4 * m := by
    rw [ge_iff_le, div_le_div_iff₀ (by norm_num) hnq, mul_comm (m : ℚ) 4]
    exact_mod_cast Iff.rfl
  refine ⟨?_, ?_, ?_, ?_⟩
  · intro h3
    rw [if_pos h3]
    by_cases hc : ((m : ℚ) / (n : ℚ) ≥ 1)
    · rw [if_pos hc]
      have hmeq := hcov1.mp hc
      have hm1 : (1 : ℚ) ≤ (m : ℚ) := by
        have : 1 ≤ m := by omega
        exact_mod_cast this
      have hpos : (0 : ℚ) < (m : ℚ) / (n : ℚ) * 100 + (m : ℚ) := by positivity
      exact ⟨fun _ => hmeq, fun _ => hpos.ne'⟩
    · rw [if_neg hc]
      exact ⟨fun h => absurd rfl h, fun hmeq => absurd (hcov1.mpr hmeq) hc⟩
  · intro h4
    rw [if_neg (by omega : ¬(n ≤ 3))]
    by_cases hc : ((m : ℚ) / (n : ℚ) ≥ 3 / 4)
    · rw [if_pos hc]
      have hpos : (0 : ℚ) < (m : ℚ) / (n : ℚ) * 100 + (m : ℚ) := by
        have hge : (3 : ℚ) / 4 ≤ (m : ℚ) / (n : ℚ) := hc
        have hm0 : (0 : ℚ) ≤ (m : ℚ) := by positivity
        nlinarith
      exact ⟨fun _ => hcov34.mp hc, fun _ => hpos.ne'⟩
    · rw [if_neg hc]
      exact ⟨fun h => absurd rfl h, fun hle => absurd (hcov34.mpr hle) hc⟩
  · intro hs
    by_cases h3 : n ≤ 3
    · rw [if_pos h3] at hs ⊢
      by_cases hc : ((m : ℚ) / (n : ℚ) ≥ 1)
      · rw [if_pos hc]
      · rw [if_neg hc] at hs; exact absurd rfl hs
    · rw [if_neg h3] at hs ⊢
      by_cases hc : ((m : ℚ) / (n : ℚ) ≥ 3 / 4)
      · rw [if_pos hc]
      · rw [if_neg hc] at hs; exact absurd rfl hs
  · rintro (⟨h3, hmne⟩ | ⟨h4, hlt⟩)
    · rw [if_pos h3]
      exact if_neg (fun hc => hmne (hcov1.mp hc))
    · rw [if_neg (by omega : ¬(n ≤ 3))]
      exact if_neg (fun hc => by have := hcov34.mp hc; omega)


theorem c5_coverage_threshold_witness :
    scorePattern "zzz" ["alpha", "beta", "gamma"] "alpha beta gamma delta" ≠ 0 ∧
    scorePattern "zzz" ["alpha", "beta"] "alpha beta gamma" = 0 := by
  constructor
  · exact ((c5_coverage_threshold "zzz" ["alpha", "beta", "gamma"]
      "alpha beta gamma delta" 4 3 (by decide) (by decide) (by decide)
      (by decide)).2.1 (by decide)).mpr (by decide)
  · exact (c5_coverage_threshold "zzz" ["alpha", "beta"]
      "alpha beta gamma" 3 2 (by decide) (by decide) (by decide)
      (by decide)).2.2.2 (Or.inl ⟨by decide, by decide⟩)

/-! ## Claim C6 -/

/-- Reference definition following the spec's words (claim C6): per kind, "keep
the rule with the strictly highest positive score, ties resolved by
first-encountered in iteration order" - the head rule is kept unless a later
rule scores strictly higher. -/
def specWinner (lowerMsg : String) (userTokens : List String) (kind : String) :
    List TrainingPair → Option (TrainingPair × ℚ)
  | [] => none
  | r :: rest =>
    let s := ruleMaxScore lowerMsg userTokens r
    let tail := specWinner lowerMsg userTokens kind rest
    if r.type = kind ∧ s > 0 then
      match tail with
      | none => some (r, s)
      | some rs => if rs.2 > s then some rs else some (r, s)
    else tail

/-- Left-priority maximum on optional scored rules. -/
def combineBest (acc new : Option (TrainingPair × ℚ)) : Option (TrainingPair × ℚ) :=
  match new with
  | none => acc
  | some rs =>
    match acc with
    | none => some rs
    | some as0 => if rs.2 > as0.2 then some rs else some as0

lemma updBest_eq_combineBest (acc : Option (TrainingPair × ℚ)) (r : TrainingPair) (s : ℚ) :
    updBest acc r s = combineBest acc (some (r, s)) := by
  unfold updBest combineBest
  rcases acc with _ | ⟨a⟩ <;> rfl

lemma combineBest_assoc (a b c : Option (TrainingPair × ℚ)) :
    combineBest (combineBest a b) c = combineBest a (combineBest b c) := by
  rcases c with _ | rc <;> rcases b with _ | rb <;> rcases a with _ | ra <;>
    simp only [combineBest]
  · split <;> rfl
  · by_cases h1 : rb.2 > ra.2
    · by_cases h2 : rc.2 > rb.2
      · have h3 : rc.2 > ra.2 := lt_trans h1 h2
        simp [h1, h2, h3]
      · simp [h1, h2]
    · by_cases h2 : rc.2 > rb.2
      · simp [h1, h2]
      · have h3 : ¬ rc.2 > ra.2 :=
          not_lt.mpr (le_trans (not_lt.mp h2) (not_lt.mp h1))
        simp [h1, h2, h3]

lemma specWinner_cons (lowerMsg : String) (userTokens : List String) (kind : String)
    (r : TrainingPair) (rest : List TrainingPair) :
    specWinner lowerMsg userTokens kind (r :: rest)
      = if r.type = kind ∧ ruleMaxScore lowerMsg userTokens r > 0 then
          combineBest (some (r, ruleMaxScore lowerMsg userTokens r))
            (specWinner lowerMsg userTokens kind rest)
        else specWinner lowerMsg userTokens kind rest := by
  conv_lhs => rw [specWinner]
  split
  · rcases h : specWinner lowerMsg userTokens kind rest with _ | rs <;>
      simp only [combineBest]
  · rfl

lemma considerRule_bestText (lowerMsg : String) (userTokens : List String)
    (b : BestMatches) (r : TrainingPair) :
    (considerRule lowerMsg userTokens b r).bestText
      = if r.type = "text" ∧ ruleMaxScore lowerMsg userTokens r > 0 then
          updBest b.bestText r (ruleMaxScore lowerMsg userTokens r)
        else b.bestText := by
  unfold considerRule
  dsimp only
  split_ifs <;> simp_all

lemma considerRule_bestImage (lowerMsg : String) (userTokens : List String)
    (b : BestMatches) (r : TrainingPair) :
    (considerRule lowerMsg userTokens b r).bestImage
      = if r.type = "image_trigger" ∧ ruleMaxScore lowerMsg userTokens r > 0 then
          updBest b.bestImage r (ruleMaxScore lowerMsg userTokens r)
        else b.bestImage := by
  unfold considerRule
  dsimp only
  split_ifs <;> simp_all

lemma considerRule_bestAudio (lowerMsg : String) (userTokens : List String)
    (b : BestMatches) (r : TrainingPair) :
    (considerRule lowerMsg userTokens b r).bestAudio
      = if r.type = "audio_trigger" ∧ ruleMaxScore lowerMsg userTokens r > 0 then
          updBest b.bestAudio r (ruleMaxScore lowerMsg userTokens r)
        else b.bestAudio := by
  unfold considerRule
  dsimp only
  split_ifs <;> simp_all

lemma foldl_considerRule_bestText (lowerMsg : String) (userTokens : List String) :
    ∀ (rules : List TrainingPair) (b : BestMatches),
      (rules.foldl (considerRule lowerMsg userTokens) b).bestText
        = combineBest b.bestText (specWinner lowerMsg userTokens "text" rules)
  | [], b => rfl
  | r :: rest, b => by
    rw [List.foldl_cons, foldl_considerRule_bestText lowerMsg userTokens rest,
        considerRule_bestText, specWinner_cons]
    split
    · rw [updBest_eq_combineBest, combineBest_assoc]
    · rfl

lemma foldl_considerRule_bestImage (lowerMsg : String) (userTokens : List String) :
    ∀ (rules : List TrainingPair) (b : BestMatches),
      (rules.foldl (considerRule lowerMsg userTokens) b).bestImage
        = combineBest b.bestImage (specWinner lowerMsg userTokens "image_trigger" rules)
  | [], b => rfl
  | r :: rest, b => by
    rw [List.foldl_cons, foldl_considerRule_bestImage lowerMsg userTokens rest,
        considerRule_bestImage, specWinner_cons]
    split
    · rw [updBest_eq_combineBest, combineBest_assoc]
    · rfl

lemma foldl_considerRule_bestAudio (lowerMsg : String) (userTokens : List String) :
    ∀ (rules : List TrainingPair) (b : BestMatches),
      (rules.foldl (considerRule lowerMsg userTokens) b).bestAudio
        = combineBest b.bestAudio (specWinner lowerMsg userTokens "audio_trigger" rules)
  | [], b => rfl
  | r :: rest, b => by
    rw [List.foldl_cons, foldl_considerRule_bestAudio lowerMsg userTokens rest,
        considerRule_bestAudio, specWinner_cons]
    split
    · rw [updBest_eq_combineBest, combineBest_assoc]
    · rfl

lemma specWinner_none (lowerMsg : String) (userTokens : List String) (kind : String) :
    ∀ (rules : List TrainingPair), specWinner lowerMsg userTokens kind rules = none →
      ∀ r' ∈ rules, r'.type = kind → ruleMaxScore lowerMsg userTokens r' ≤ 0
  | [], _, r', hr', _ => absurd hr' (List.not_mem_nil r')
  | r :: rest, h, r', hr', htype => by
    rw [specWinner_cons] at h
    split at h
    · exfalso
      cases hr2 : specWinner lowerMsg userTokens kind rest with
      | none => rw [hr2] at h; simp [combineBest] at h
      | some rs =>
        rw [hr2] at h
        simp only [combineBest] at h
        split at h <;> simp_all
    · rcases List.mem_cons.mp hr' with rfl | hmem
      · rename_i hcond
        by_contra hpos
        exact hcond ⟨htype, lt_of_not_le hpos⟩
      · exact specWinner_none lowerMsg userTokens kind rest h r' hmem htype

lemma specWinner_sound (lowerMsg : String) (userTokens : List String) (kind : String) :
    ∀ (rules : List TrainingPair) (r : TrainingPair) (s : ℚ),
      specWinner lowerMsg userTokens kind rules = some (r, s) →
      r ∈ rules ∧ r.type = kind ∧ s = ruleMaxScore lowerMsg userTokens r ∧ s > 0 ∧
        ∀ r' ∈ rules, r'.type = kind → ruleMaxScore lowerMsg userTokens r' ≤ s
  | [], r, s, h => by simp [specWinner] at h
  | r0 :: rest, r, s, h => by
    rw [specWinner_cons] at h
    split at h
    · rename_i hcond
      cases htail : specWinner lowerMsg userTokens kind rest with
      | none =>
        rw [htail] at h
        simp only [combineBest, Option.some.injEq, Prod.mk.injEq] at h
        obtain ⟨rfl, rfl⟩ := h
        refine ⟨List.mem_cons_self .., hcond.1, rfl, hcond.2, ?_⟩
        intro r' hr' htype
        rcases List.mem_cons.mp hr' with rfl | hmem
        · exact le_refl _
        · exact le_trans (specWinner_none lowerMsg userTokens kind rest htail r' hmem htype)
            (le_of_lt hcond.2)
      | some rs =>
        obtain ⟨rt, st⟩ := rs
        rw [htail] at h
        simp only [combineBest] at h
        obtain ⟨hmem, htype, hseq, hspos, hmax⟩ :=
          specWinner_sound lowerMsg userTokens kind rest rt st htail
        split at h
        · rename_i hgt
          simp only [Option.some.injEq, Prod.mk.injEq] at h
          obtain ⟨rfl, rfl⟩ := h
          refine ⟨List.mem_cons_of_mem _ hmem, htype, hseq, hspos, ?_⟩
          intro r' hr' htype'
          rcases List.mem_cons.mp hr' with rfl | hmem'
          · exact le_of_lt hgt
          · exact hmax r' hmem' htype'
        · rename_i hngt
          simp only [Option.some.injEq, Prod.mk.injEq] at h
          obtain ⟨rfl, rfl⟩ := h
          refine ⟨List.mem_cons_self .., hcond.1, rfl, hcond.2, ?_⟩
          intro r' hr' htype'
          rcases List.mem_cons.mp hr' with rfl | hmem'
          · exact le_refl _
          · exact le_trans (hmax r' hmem' htype') (le_of_not_lt hngt)
    · rename_i hcond
      obtain ⟨hmem, htype, hseq, hspos, hmax⟩ :=
        specWinner_sound lowerMsg userTokens kind rest r s h
      refine ⟨List.mem_cons_of_mem _ hmem, htype, hseq, hspos, ?_⟩
      intro r' hr' htype'
      rcases List.mem_cons.mp hr' with rfl | hmem'
      · by_contra hpos
        exact hcond ⟨htype', lt_trans hspos (lt_of_not_le hpos)⟩
      · exact hmax r' hmem' htype'

def c6Store : List DBImage :=
  [{ id := "img1", personaId := "p1", data := "DATA1", tags := ["wave"],
     description := "a wave" }]

def c6Persona : PersonaProfile :=
  { id := "p1", name := "Sam",
    neuralMap :=
      { coreIdentity := { name := "Sam" },
        customTraining :=
          [{ id := "t1", type := "text", inputPatterns := ["hello"],
             responses := [{ text := "hi there!", timeOfDay := "any" }] },
           { id := "v1", type := "image_trigger", inputPatterns := ["hello"],
             responses := [], imageTag := "wave" }],
        logicRules := [] },
    memory := {} }

lemma combineBest_none (x : Option (TrainingPair × ℚ)) : combineBest none x = x := by
  rcases x with _ | rs <;> rfl

set_option maxRecDepth 40000 in
/-- C6: for each of the three rule kinds the selected winner is the rule
attaining the strictly highest positive score, ties going to the rule
encountered first in list order (the engine's one-pass fold equals the
spec-transcribed `specWinner`, whose soundness is the second conjunct); the
three winners are computed independently, and concretely one message can yield
a text reply from one rule and an image from another simultaneously. -/
theorem c6_winner_selection :
    (∀ (lowerMsg : String) (userTokens : List String) (rules : List TrainingPair),
      (findBestMatches lowerMsg userTokens rules).bestText
          = specWinner lowerMsg userTokens "text" rules ∧
      (findBestMatches lowerMsg userTokens rules).bestImage
          = specWinner lowerMsg userTokens "image_trigger" rules ∧
      (findBestMatches lowerMsg userTokens rules).bestAudio
          = specWinner lowerMsg userTokens "audio_trigger" rules) ∧
    (∀ (lowerMsg : String) (userTokens : List String) (kind : String)
        (rules : List TrainingPair) (r : TrainingPair) (s : ℚ),
      specWinner lowerMsg userTokens kind rules = some (r, s) →
      r ∈ rules ∧ r.type = kind ∧ s = ruleMaxScore lowerMsg userTokens r ∧ s > 0 ∧
        ∀ r' ∈ rules, r'.type = kind → ruleMaxScore lowerMsg userTokens r' ≤ s) ∧
    ((processOfflineMessage c6Persona "hello" MessageType.text [] 10 "9"
        (okStore c6Store) [0, 0]).text = "hi there!" ∧
     (processOfflineMessage c6Persona "hello" MessageType.text [] 10 "9"
        (okStore c6Store) [0, 0]).image = some "DATA1") := by
  refine ⟨?_, ?_, ?_, ?_⟩
  · intro lowerMsg userTokens rules
    unfold findBestMatches
    refine ⟨?_, ?_, ?_⟩
    · rw [foldl_considerRule_bestText, combineBest_none]
    · rw [foldl_considerRule_bestImage, combineBest_none]
    · rw [foldl_considerRule_bestAudio, combineBest_none]
  · intro lowerMsg userTokens kind rules r s h
    exact specWinner_sound lowerMsg userTokens kind rules r s h
  · with_unfolding_all decide
  · with_unfolding_all decide


def c6SampleRule : TrainingPair :=
  { id := "t1", type := "text", inputPatterns := ["hello"],
    responses := [{ text := "hi there!", timeOfDay := "any" }] }

set_option maxRecDepth 40000 in
theorem c6_winner_selection_witness :
    c6SampleRule ∈ [c6SampleRule] ∧ c6SampleRule.type = "text" ∧
    (1001 : ℚ) = ruleMaxScore "hello" ["hello"] c6SampleRule ∧ (1001 : ℚ) > 0 ∧
    ∀ r' ∈ [c6SampleRule], r'.type = "text" →
      ruleMaxScore "hello" ["hello"] r' ≤ 1001 :=
  c6_winner_selection.2.1 "hello" ["hello"] "text" [c6SampleRule] c6SampleRule 1001
    (by with_unfolding_all decide)

/-! ## Claim C2 -/



lemma lookupCount_cons (k0 : String) (v0 : Nat) (rest : List (String × Nat)) (k : String) :
    lookupCount ((k0, v0) :: rest) k = if k0 = k then v0 else lookupCount rest k := by
  by_cases h : k0 = k
  · simp [lookupCount, List.find?_cons_of_pos, h]
  · have hb : (k0 == k) = false := beq_eq_false_iff_ne.mpr h
    simp only [lookupCount, List.find?_cons, hb, if_neg h]

lemma setCount_cons (k0 : String) (v0 : Nat) (rest : List (String × Nat)) (k : String)
    (v : Nat) :
    setCount ((k0, v0) :: rest) k v
      = if k0 = k then (k, v) :: rest else (k0, v0) :: setCount rest k v := by
  by_cases h : k0 = k
  · simp [setCount, h]
  · have hb : (k0 == k) = false := beq_eq_false_iff_ne.mpr h
    simp [setCount, hb, h]

lemma lookupCount_setCount_self : ∀ (st : List (String × Nat)) (k : String) (v : Nat),
    lookupCount (setCount st k v) k = v
  | [], k, v => by simp [setCount, lookupCount]
  | (k', v') :: rest, k, v => by
    rw [setCount_cons]
    by_cases h : k' = k
    · rw [if_pos h, lookupCount_cons, if_pos rfl]
    · rw [if_neg h, lookupCount_cons, if_neg h]
      exact lookupCount_setCount_self rest k v

lemma lookupCount_setCount_ne : ∀ (st : List (String × Nat)) (k k' : String) (v : Nat),
    k' ≠ k → lookupCount (setCount st k v) k' = lookupCount st k'
  | [], k, k', v, hne => by
    simp [setCount, lookupCount, List.find?, beq_eq_false_iff_ne.mpr (Ne.symm hne)]
  | (k0, v0) :: rest, k, k', v, hne => by
    rw [setCount_cons]
    by_cases h : k0 = k
    · rw [if_pos h, lookupCount_cons, lookupCount_cons, if_neg (Ne.symm hne),
          if_neg (h ▸ Ne.symm hne)]
    · rw [if_neg h, lookupCount_cons, lookupCount_cons]
      by_cases h2 : k0 = k'
      · rw [if_pos h2, if_pos h2]
      · rw [if_neg h2, if_neg h2]
        exact lookupCount_setCount_ne rest k k' v hne



lemma lookupCount_incCount_self (st : List (String × Nat)) (k : String) :
    lookupCount (incCount st k) k = lookupCount st k + 1 :=
  lookupCount_setCount_self st k _

lemma lookupCount_incCount_ne (st : List (String × Nat)) (k k' : String) (hne : k' ≠ k) :
    lookupCount (incCount st k) k' = lookupCount st k' :=
  lookupCount_setCount_ne st k k' _ hne

lemma append_left_cancel_str {p a b : String} (h : p ++ a = p ++ b) : a = b := by
  have hd : (p ++ a).data = (p ++ b).data := by rw [h]
  simp only [String.data_append] at hd
  exact String.ext (List.append_cancel_left hd)

lemma kw_ne_tag (a b : String) : "kw_" ++ a ≠ "tag_" ++ b := by
  intro h
  have hd : ("kw_" ++ a).data = ("tag_" ++ b).data := by rw [h]
  simp [String.data_append] at hd

lemma foldl_inc_kw (x : String) : ∀ (tokens : List String) (st : List (String × Nat)),
    lookupCount (tokens.foldl (fun s tok => incCount s ("kw_" ++ tok)) st) ("kw_" ++ x)
      = lookupCount st ("kw_" ++ x) + tokens.count x
  | [], st => by simp
  | t :: rest, st => by
    rw [List.foldl_cons, foldl_inc_kw x rest]
    by_cases h : t = x
    · subst h
      rw [lookupCount_incCount_self, List.count_cons_self]
      omega
    · rw [lookupCount_incCount_ne _ _ _ (fun hc => h (append_left_cancel_str hc).symm),
          List.count_cons_of_ne (by simpa using fun hc => h hc.symm)]

lemma foldl_inc_tag_kw (x : String) : ∀ (tags : List String) (st : List (String × Nat)),
    lookupCount (tags.foldl (fun s tag => incCount s ("tag_" ++ tag)) st) ("kw_" ++ x)
      = lookupCount st ("kw_" ++ x)
  | [], st => by simp
  | t :: rest, st => by
    rw [List.foldl_cons, foldl_inc_tag_kw x rest,
        lookupCount_incCount_ne _ _ _ (kw_ne_tag x t)]

lemma foldl_inc_kw_tag (x : String) : ∀ (tokens : List String) (st : List (String × Nat)),
    lookupCount (tokens.foldl (fun s tok => incCount s ("kw_" ++ tok)) st) ("tag_" ++ x)
      = lookupCount st ("tag_" ++ x)
  | [], st => by simp
  | t :: rest, st => by
    rw [List.foldl_cons, foldl_inc_kw_tag x rest,
        lookupCount_incCount_ne _ _ _ (Ne.symm (kw_ne_tag t x))]

lemma foldl_inc_tag (x : String) : ∀ (tags : List String) (st : List (String × Nat)),
    lookupCount (tags.foldl (fun s tag => incCount s ("tag_" ++ tag)) st) ("tag_" ++ x)
      = lookupCount st ("tag_" ++ x) + tags.count x
  | [], st => by simp
  | t :: rest, st => by
    rw [List.foldl_cons, foldl_inc_tag x rest]
    by_cases h : t = x
    · subst h
      rw [lookupCount_incCount_self, List.count_cons_self]
      omega
    · rw [lookupCount_incCount_ne _ _ _ (fun hc => h (append_left_cancel_str hc).symm),
          List.count_cons_of_ne (by simpa using fun hc => h hc.symm)]

lemma updateCounts_kw (st : List (String × Nat)) (tokens tags : List String) (x : String) :
    lookupCount (updateCounts st tokens tags) ("kw_" ++ x)
      = lookupCount st ("kw_" ++ x) + tokens.count x := by
  unfold updateCounts
  rw [foldl_inc_tag_kw, foldl_inc_kw]

lemma updateCounts_tag (st : List (String × Nat)) (tokens tags : List String) (x : String) :
    lookupCount (updateCounts st tokens tags) ("tag_" ++ x)
      = lookupCount st ("tag_" ++ x) + tags.count x := by
  unfold updateCounts
  rw [foldl_inc_tag, foldl_inc_kw_tag]

lemma finishTurn_logicCounts (persona : PersonaProfile)
    (messageContent lowerMsg timeGreeting coreName : String)
    (newCounts : List (String × Nat)) (st : TurnState) :
    (finishTurn persona messageContent lowerMsg timeGreeting coreName
      newCounts st).updatedPersona.memory.logicCounts = newCounts := by
  unfold finishTurn
  dsimp only
  repeat' split
  all_goals rfl

lemma process_logicCounts (persona : PersonaProfile) (msg : String)
    (hist : List Message) (hour : Nat) (nowId : String)
    (searchFn : String → List String → Except Unit (List DBImage)) (rands : List Nat)
    (hpend : persona.memory.waitingForDefinition = none) :
    (processOfflineMessage persona msg MessageType.text hist hour nowId searchFn
        rands).updatedPersona.memory.logicCounts
      = (applyLogic persona.id searchFn persona.neuralMap.logicRules
          persona.memory.logicCounts (tokenize msg)
          (phase2 persona.id searchFn (getCurrentTimePhase hour)
            (jsTrim (jsToLower msg)) (tokenize msg)
            persona.neuralMap.customTraining persona.memory.lastSentImageIds rands)).1 := by
  unfold processOfflineMessage
  rw [if_neg (by decide : ¬(MessageType.text = MessageType.audio))]
  rw [if_neg (by simp [hpend])]
  exact finishTurn_logicCounts ..



def c2Persona : PersonaProfile :=
  { id := "p2", name := "Sam",
    neuralMap := { coreIdentity := { name := "Sam" } }, memory := {} }

set_option maxRecDepth 40000 in
/-- C2 counterexample: with an empty logic-rule list, a text turn with no
pending definition leaves the counters untouched - the message "hello"
contains one occurrence of the token "hello", yet its keyword counter is still
0 afterwards, because the source guards the whole tally update with
`map.logicRules.length > 0`. -/
theorem c2_counterexample :
    (tokenize "hello").count "hello" = 1 ∧
    (processOfflineMessage c2Persona "hello" MessageType.text [] 10 "1" emptyStore
        [0]).updatedPersona.memory.logicCounts = [] ∧
    lookupCount (processOfflineMessage c2Persona "hello" MessageType.text [] 10 "1"
        emptyStore [0]).updatedPersona.memory.logicCounts "kw_hello" = 0 := by
  with_unfolding_all decide

/-- C2 as amended: provided the persona has at least one logic rule, on every
text-kind invocation with no pending definition the final counters are the
per-turn tally (each token occurrence incrementing its `kw_` counter and each
image tag sent in step 2b incrementing its `tag_` counter, regardless of the
trained rules) with only the firing/action fold of the logic rules applied on
top; with no logic rules at all the counters are not updated. -/
theorem c2_counters_amended :
    (∀ (persona : PersonaProfile) (msg : String) (hist : List Message) (hour : Nat)
        (nowId : String) (searchFn : String → List String → Except Unit (List DBImage))
        (rands : List Nat) (st1 : TurnState),
      persona.memory.waitingForDefinition = none →
      persona.neuralMap.logicRules ≠ [] →
      st1 = phase2 persona.id searchFn (getCurrentTimePhase hour)
        (jsTrim (jsToLower msg)) (tokenize msg) persona.neuralMap.customTraining
        persona.memory.lastSentImageIds rands →
      (processOfflineMessage persona msg MessageType.text hist hour nowId searchFn
          rands).updatedPersona.memory.logicCounts
        = ((persona.neuralMap.logicRules).foldl (logicStep persona.id searchFn)
            { counts := updateCounts persona.memory.logicCounts (tokenize msg) st1.eventTags,
              responseText := st1.responseText, responseImage := st1.responseImage,
              responseAudio := st1.responseAudio, rands := st1.rands,
              conditionTriggered := false }).counts) ∧
    (∀ (st : List (String × Nat)) (tokens tags : List String) (x : String),
      lookupCount (updateCounts st tokens tags) ("kw_" ++ x)
        = lookupCount st ("kw_" ++ x) + tokens.count x) ∧
    (∀ (st : List (String × Nat)) (tokens tags : List String) (x : String),
      lookupCount (updateCounts st tokens tags) ("tag_" ++ x)
        = lookupCount st ("tag_" ++ x) + tags.count x) ∧
    (∀ (persona : PersonaProfile) (msg : String) (hist : List Message) (hour : Nat)
        (nowId : String) (searchFn : String → List String → Except Unit (List DBImage))
        (rands : List Nat),
      persona.memory.waitingForDefinition = none →
      persona.neuralMap.logicRules = [] →
      (processOfflineMessage persona msg MessageType.text hist hour nowId searchFn
          rands).updatedPersona.memory.logicCounts = persona.memory.logicCounts) := by
  refine ⟨?_, updateCounts_kw, updateCounts_tag, ?_⟩
  · intro persona msg hist hour nowId searchFn rands st1 hpend hrules hst1
    subst hst1
    rw [process_logicCounts persona msg hist hour nowId searchFn rands hpend]
    unfold applyLogic
    rw [if_neg (by simpa using hrules)]
    rfl
  · intro persona msg hist hour nowId searchFn rands hpend hrules
    rw [process_logicCounts persona msg hist hour nowId searchFn rands hpend]
    unfold applyLogic
    rw [if_pos (by simpa using hrules)]



def c2wPersona : PersonaProfile :=
  { id := "p2w", name := "Sam",
    neuralMap :=
      { coreIdentity := { name := "Sam" },
        logicRules :=
          [{ id := "L1", name := "kw -> text", monitor := "user_says_keyword",
             target := "ping", threshold := 2, action := "send_text",
             actionPayload := "pong", resetOnTrigger := true }] },
    memory := {} }

theorem c2_counters_amended_witness :
    ((processOfflineMessage c2wPersona "ping" MessageType.text [] 10 "1" emptyStore
        [0]).updatedPersona.memory.logicCounts
      = ((c2wPersona.neuralMap.logicRules).foldl (logicStep c2wPersona.id emptyStore)
          { counts :=
              updateCounts c2wPersona.memory.logicCounts (tokenize "ping")
                (phase2 c2wPersona.id emptyStore (getCurrentTimePhase 10)
                  (jsTrim (jsToLower "ping")) (tokenize "ping")
                  c2wPersona.neuralMap.customTraining
                  c2wPersona.memory.lastSentImageIds [0]).eventTags,
            responseText :=
              (phase2 c2wPersona.id emptyStore (getCurrentTimePhase 10)
                (jsTrim (jsToLower "ping")) (tokenize "ping")
                c2wPersona.neuralMap.customTraining
                c2wPersona.memory.lastSentImageIds [0]).responseText,
            responseImage :=
              (phase2 c2wPersona.id emptyStore (getCurrentTimePhase 10)
                (jsTrim (jsToLower "ping")) (tokenize "ping")
                c2wPersona.neuralMap.customTraining
                c2wPersona.memory.lastSentImageIds [0]).responseImage,
            responseAudio :=
              (phase2 c2wPersona.id emptyStore (getCurrentTimePhase 10)
                (jsTrim (jsToLower "ping")) (tokenize "ping")
                c2wPersona.neuralMap.customTraining
                c2wPersona.memory.lastSentImageIds [0]).responseAudio,
            rands :=
              (phase2 c2wPersona.id emptyStore (getCurrentTimePhase 10)
                (jsTrim (jsToLower "ping")) (tokenize "ping")
                c2wPersona.neuralMap.customTraining
                c2wPersona.memory.lastSentImageIds [0]).rands,
            conditionTriggered := false }).counts) ∧
    (processOfflineMessage c2Persona "hi" MessageType.text [] 10 "1" emptyStore
        [0]).updatedPersona.memory.logicCounts = c2Persona.memory.logicCounts :=
  ⟨c2_counters_amended.1 c2wPersona "ping" [] 10 "1" emptyStore [0] _ rfl
      (by decide) rfl,
   c2_counters_amended.2.2.2 c2Persona "hi" [] 10 "1" emptyStore [0] rfl rfl⟩

/-! ## Claim C3 -/



lemma logicStep_counts_user (pid : String)
    (searchFn : String → List String → Except Unit (List DBImage))
    (ls : LogicState) (r : LogicRule) (hmon : r.monitor = "user_says_keyword") :
    (logicStep pid searchFn ls r).counts
      = if (0 < lookupCount ls.counts ("kw_" ++ jsToLower r.target) ∧
            r.threshold ≤ lookupCount ls.counts ("kw_" ++ jsToLower r.target)) ∧
           r.resetOnTrigger = true
        then setCount ls.counts ("kw_" ++ jsToLower r.target) 0 else ls.counts := by
  by_cases hfr : (0 < lookupCount ls.counts ("kw_" ++ jsToLower r.target) ∧
      r.threshold ≤ lookupCount ls.counts ("kw_" ++ jsToLower r.target)) ∧
      r.resetOnTrigger = true
  · conv_rhs => rw [if_pos hfr]
    unfold logicStep
    rw [if_pos hmon]
    dsimp only
    rw [if_pos hfr.1, if_pos hfr.2]
    dsimp only
    congr 1
    repeat' split
    all_goals rfl
  · conv_rhs => rw [if_neg hfr]
    unfold logicStep
    rw [if_pos hmon]
    dsimp only
    by_cases hf : 0 < lookupCount ls.counts ("kw_" ++ jsToLower r.target) ∧
        r.threshold ≤ lookupCount ls.counts ("kw_" ++ jsToLower r.target)
    · rw [if_pos hf, if_neg (fun hr => hfr ⟨hf, hr⟩)]
      repeat' split
      all_goals rfl
    · rw [if_neg hf]

lemma logicStep_conditionTriggered_user (pid : String)
    (searchFn : String → List String → Except Unit (List DBImage))
    (ls : LogicState) (r : LogicRule) (hmon : r.monitor = "user_says_keyword") :
    (logicStep pid searchFn ls r).conditionTriggered
      = if 0 < lookupCount ls.counts ("kw_" ++ jsToLower r.target) ∧
           r.threshold ≤ lookupCount ls.counts ("kw_" ++ jsToLower r.target)
        then true else ls.conditionTriggered := by
  by_cases hf : 0 < lookupCount ls.counts ("kw_" ++ jsToLower r.target) ∧
      r.threshold ≤ lookupCount ls.counts ("kw_" ++ jsToLower r.target)
  · conv_rhs => rw [if_pos hf]
    unfold logicStep
    rw [if_pos hmon]
    dsimp only
    rw [if_pos hf]
    repeat' split
    all_goals rfl
  · conv_rhs => rw [if_neg hf]
    unfold logicStep
    rw [if_pos hmon]
    dsimp only
    rw [if_neg hf]

/-- C3: for a persona whose logic-rule list is the single keyword-monitoring
rule `r` with positive threshold: the rule fires on a turn exactly when the
keyword counter, incremented by this turn's occurrences of the keyword,
reaches or exceeds the threshold (hence not on any earlier turn), and the
stored counter afterwards is zero exactly when it fired with `resetOnTrigger`
set, so the rule cannot re-fire until `threshold` further occurrences
accumulate. -/
theorem c3_threshold_firing (pid : String)
    (searchFn : String → List String → Except Unit (List DBImage)) (r : LogicRule)
    (counts : List (String × Nat)) (tokens tags : List String)
    (text0 : String) (img0 aud0 : Option String) (rands : List Nat) (c k : Nat)
    (hmon : r.monitor = "user_says_keyword") (hthr : 1 ≤ r.threshold)
    (hc : c = lookupCount counts ("kw_" ++ jsToLower r.target))
    (hk : k = tokens.count (jsToLower r.target)) :
    ((runLogic pid searchFn [r] counts tokens tags text0 img0 aud0
        rands).conditionTriggered = true ↔ r.threshold ≤ c + k) ∧
    lookupCount (runLogic pid searchFn [r] counts tokens tags text0 img0 aud0
        rands).counts ("kw_" ++ jsToLower r.target)
      = if r.threshold ≤ c + k ∧ r.resetOnTrigger = true then 0 else c + k := by
  have hcc : lookupCount (updateCounts counts tokens tags) ("kw_" ++ jsToLower r.target)
      = c + k := by
    rw [updateCounts_kw, hc, hk]
  unfold runLogic
  rw [List.foldl_cons, List.foldl_nil]
  constructor
  · rw [logicStep_conditionTriggered_user pid searchFn _ r hmon]
    dsimp only
    rw [hcc]
    by_cases hf : 0 < c + k ∧ r.threshold ≤ c + k
    · rw [if_pos hf]
      exact ⟨fun _ => hf.2, fun _ => rfl⟩
    · rw [if_neg hf]
      exact ⟨fun h => absurd h (by simp), fun hle => absurd ⟨by omega, hle⟩ hf⟩
  · rw [logicStep_counts_user pid searchFn _ r hmon]
    dsimp only
    rw [hcc]
    by_cases hf : (0 < c + k ∧ r.threshold ≤ c + k) ∧ r.resetOnTrigger = true
    · rw [if_pos hf, if_pos ⟨hf.1.2, hf.2⟩]
      exact lookupCount_setCount_self _ _ _
    · rw [if_neg hf, if_neg (fun hx => hf ⟨⟨by omega, hx.1⟩, hx.2⟩), hcc]



def c3Rule : LogicRule :=
  { id := "L3", name := "kw -> text", monitor := "user_says_keyword", target := "ping",
    threshold := 3, action := "send_text", actionPayload := "pong",
    resetOnTrigger := true }

theorem c3_threshold_firing_witness :
    ((runLogic "p" emptyStore [c3Rule] [("kw_ping", 2)] ["ping"] [] "" none none
        []).conditionTriggered = true ↔ c3Rule.threshold ≤ 2 + 1) ∧
    lookupCount (runLogic "p" emptyStore [c3Rule] [("kw_ping", 2)] ["ping"] [] ""
        none none []).counts ("kw_" ++ jsToLower c3Rule.target)
      = if c3Rule.threshold ≤ 2 + 1 ∧ c3Rule.resetOnTrigger = true then 0 else 2 + 1 :=
  c3_threshold_firing "p" emptyStore c3Rule [("kw_ping", 2)] ["ping"] [] "" none none
    [] 2 1 rfl (by decide) (by decide) (by decide)

/-! ## Claim C7 -/



lemma decide_eq_beq {α : Type} [DecidableEq α] [BEq α] [LawfulBEq α] (a b : α) :
    decide (a = b) = (a == b) := by
  rw [Bool.eq_iff_iff]
  simp

/-- Repeated image-winner turns for one fixed tag: each turn consumes one rand
stream and reuses the updated `recentlySentImageIds`. -/
def iteratePicks (tagged : List DBImage) : List (List Nat) → List String →
    List DBImage × List String
  | [], seen => ([], seen)
  | rs :: rest, seen =>
    let pr := pickImage tagged seen rs
    let next := iteratePicks tagged rest pr.seen
    ((match pr.sel with | some i => [i] | none => []) ++ next.1, next.2)

lemma pickImage_fresh (tagged : List DBImage) (seen : List String) (rands : List Nat)
    (h : ∃ img ∈ tagged, seen.contains img.id = false) :
    ∃ img ∈ tagged, seen.contains img.id = false ∧
      pickImage tagged seen rands
        = { sel := some img, seen := seen ++ [img.id], rands := rands.tail } := by
  obtain ⟨i0, hi0, hs0⟩ := h
  have hnm : i0.id ∉ seen := by simpa using hs0
  have hcand : tagged.filter (fun img => !(seen.contains img.id)) ≠ [] := by
    intro hnil
    have hin : i0 ∈ tagged.filter (fun img => !(seen.contains img.id)) :=
      List.mem_filter.mpr ⟨hi0, by simp [hnm]⟩
    rw [hnil] at hin
    exact List.not_mem_nil i0 hin
  obtain ⟨img, hmem, heq⟩ := getRandomElement_of_ne_nil _ rands hcand
  obtain ⟨hmemt, hns⟩ := List.mem_filter.mp hmem
  refine ⟨img, hmemt, by simpa using hns, ?_⟩
  unfold pickImage
  rw [if_neg (by simpa [List.isEmpty_iff] using hcand)]
  dsimp only
  rw [heq]

lemma pickImage_reset (tagged : List DBImage) (seen : List String) (rands : List Nat)
    (hne : tagged ≠ [])
    (h : ∀ img ∈ tagged, seen.contains img.id = true) :
    ∃ img ∈ tagged,
      pickImage tagged seen rands
        = { sel := some img,
            seen := (seen.filter
                (fun i => !((tagged.map (fun im => im.id)).contains i))) ++ [img.id],
            rands := rands.tail } := by
  have hcand : tagged.filter (fun img => !(seen.contains img.id)) = [] := by
    rw [List.filter_eq_nil_iff]
    intro a ha
    have hmem2 : a.id ∈ seen := by simpa using h a ha
    simp [hmem2]
  obtain ⟨img, hmem, heq⟩ := getRandomElement_of_ne_nil tagged rands hne
  refine ⟨img, hmem, ?_⟩
  unfold pickImage
  rw [if_pos (by rw [hcand]; rfl)]
  dsimp only
  rw [heq]

lemma unseen_length_after (tagged : List DBImage) (seen : List String) (img : DBImage)
    (hnodup : (tagged.map (fun i => i.id)).Nodup) (hmem : img ∈ tagged)
    (hnew : seen.contains img.id = false) :
    (tagged.filter (fun i => !((seen ++ [img.id]).contains i.id))).length + 1
      = (tagged.filter (fun i => !(seen.contains i.id))).length := by
  have hsplit : tagged.filter (fun i => !((seen ++ [img.id]).contains i.id))
      = (tagged.filter (fun i => !(seen.contains i.id))).filter
          (fun i => !(i.id == img.id)) := by
    rw [List.filter_filter]
    apply List.filter_congr
    intro a _
    by_cases hmem2 : a.id ∈ seen <;> by_cases heq2 : a.id = img.id <;>
      simp [List.contains, hmem2, heq2, decide_eq_beq]
  have hnm : img.id ∉ seen := by simpa using hnew
  have himgF : img ∈ tagged.filter (fun i => !(seen.contains i.id)) :=
    List.mem_filter.mpr ⟨hmem, by simp [hnm]⟩
  have hFnodup : ((tagged.filter (fun i => !(seen.contains i.id))).map
      (fun i => i.id)).Nodup :=
    hnodup.sublist ((List.filter_sublist tagged).map _)
  have hcount : (tagged.filter (fun i => !(seen.contains i.id))).countP
      (fun i => (i.id == img.id)) = 1 := by
    have h1 : (tagged.filter (fun i => !(seen.contains i.id))).countP
        (fun i => (i.id == img.id))
        = ((tagged.filter (fun i => !(seen.contains i.id))).map
            (fun i => i.id)).count img.id := by
      rw [List.count, List.countP_map]
      rfl
    rw [h1]
    exact List.count_eq_one_of_mem hFnodup (List.mem_map_of_mem _ himgF)
  rw [hsplit]
  have hlen := List.length_eq_countP_add_countP
    (fun i => (i.id == img.id)) (l := tagged.filter (fun i => !(seen.contains i.id)))
  have hlenf : ((tagged.filter (fun i => !(seen.contains i.id))).filter
      (fun i => !(i.id == img.id))).length
      = (tagged.filter (fun i => !(seen.contains i.id))).countP
          (fun i => !(i.id == img.id)) :=
    (List.countP_eq_length_filter _ _).symm
  have hcongr : (tagged.filter (fun i => !(seen.contains i.id))).countP
        (fun a => !(a.id == img.id))
      = (tagged.filter (fun i => !(seen.contains i.id))).countP
          (fun a => decide ¬(a.id == img.id) = true) := by
    apply List.countP_congr
    intro a _
    simp
  omega



lemma iteratePicks_spec (tagged : List DBImage)
    (hnodup : (tagged.map (fun i => i.id)).Nodup) :
    ∀ (rsl : List (List Nat)) (seen : List String),
      rsl.length ≤ (tagged.filter (fun i => !(seen.contains i.id))).length →
      (iteratePicks tagged rsl seen).1.length = rsl.length ∧
      (∀ p ∈ (iteratePicks tagged rsl seen).1, p ∈ tagged ∧ p.id ∉ seen) ∧
      ((iteratePicks tagged rsl seen).1.map (fun i => i.id)).Nodup ∧
      (iteratePicks tagged rsl seen).2
        = seen ++ (iteratePicks tagged rsl seen).1.map (fun i => i.id)
  | [], seen, _ => by
    refine ⟨rfl, by simp [iteratePicks], by simp [iteratePicks], by simp [iteratePicks]⟩
  | rs :: rest, seen, hlen => by
    have hex : ∃ img ∈ tagged, seen.contains img.id = false := by
      by_contra hno
      push_neg at hno
      have hnil : tagged.filter (fun i => !(seen.contains i.id)) = [] := by
        rw [List.filter_eq_nil_iff]
        intro a ha
        have h2 := hno a ha
        simp only [Bool.not_eq_false] at h2
        have h3 : a.id ∈ seen := by simpa using h2
        simp [h3]
      rw [hnil] at hlen
      simp at hlen
    obtain ⟨img, hmem, hns, heq⟩ := pickImage_fresh tagged seen rs hex
    have hnm : img.id ∉ seen := by simpa using hns
    have hlen' : rest.length
        ≤ (tagged.filter (fun i => !((seen ++ [img.id]).contains i.id))).length := by
      have hdec := unseen_length_after tagged seen img hnodup hmem hns
      have : (rs :: rest).length = rest.length + 1 := rfl
      omega
    obtain ⟨ih1, ih2, ih3, ih4⟩ := iteratePicks_spec tagged hnodup rest (seen ++ [img.id]) hlen'
    have hunf : iteratePicks tagged (rs :: rest) seen
        = (img :: (iteratePicks tagged rest (seen ++ [img.id])).1,
           (iteratePicks tagged rest (seen ++ [img.id])).2) := by
      show (let pr := pickImage tagged seen rs
            let next := iteratePicks tagged rest pr.seen
            ((match pr.sel with | some i => [i] | none => []) ++ next.1, next.2)) = _
      rw [heq]
      rfl
    rw [hunf]
    refine ⟨by simpa using ih1, ?_, ?_, ?_⟩
    · intro p hp
      rcases List.mem_cons.mp hp with rfl | hmem'
      · exact ⟨hmem, hnm⟩
      · obtain ⟨hpt, hpns⟩ := ih2 p hmem'
        refine ⟨hpt, fun hc => hpns (List.mem_append.mpr (Or.inl hc))⟩
    · dsimp only [List.map_cons]
      rw [List.nodup_cons]
      refine ⟨?_, ih3⟩
      intro hc
      obtain ⟨q, hq, hqid⟩ := List.mem_map.mp hc
      obtain ⟨_, hqns⟩ := ih2 q hq
      exact hqns (List.mem_append.mpr (Or.inr (by simp [hqid])))
    · rw [ih4]
      simp


/-- C7: anti-repetition for images.  For a tag with stored candidates `tagged`
(distinct ids): iterating the image-selection step never repeats - as long as
unseen candidates remain, each turn picks an image not in
`recentlySentImageIds`, appends exactly its id, and the picked images are
pairwise distinct (so all N candidates are sent once before any repeat); when
every candidate is excluded, the reset forgets only the ids belonging to this
tag's candidate set and picks among all candidates again. -/
theorem c7_anti_repetition :
    (∀ (tagged : List DBImage) (rsl : List (List Nat)) (seen : List String),
      (tagged.map (fun i => i.id)).Nodup →
      rsl.length ≤ (tagged.filter (fun i => !(seen.contains i.id))).length →
      (iteratePicks tagged rsl seen).1.length = rsl.length ∧
      (∀ p ∈ (iteratePicks tagged rsl seen).1, p ∈ tagged ∧ p.id ∉ seen) ∧
      ((iteratePicks tagged rsl seen).1.map (fun i => i.id)).Nodup ∧
      (iteratePicks tagged rsl seen).2
        = seen ++ (iteratePicks tagged rsl seen).1.map (fun i => i.id)) ∧
    (∀ (tagged : List DBImage) (seen : List String) (rands : List Nat),
      (∃ img ∈ tagged, seen.contains img.id = false) →
      ∃ img ∈ tagged, seen.contains img.id = false ∧
        pickImage tagged seen rands
          = { sel := some img, seen := seen ++ [img.id], rands := rands.tail }) ∧
    (∀ (tagged : List DBImage) (seen : List String) (rands : List Nat),
      tagged ≠ [] → (∀ img ∈ tagged, seen.contains img.id = true) →
      ∃ img ∈ tagged,
        pickImage tagged seen rands
          = { sel := some img,
              seen := (seen.filter
                  (fun i => !((tagged.map (fun im => im.id)).contains i))) ++ [img.id],
              rands := rands.tail }) :=
  ⟨fun tagged rsl seen hnd hlen => iteratePicks_spec tagged hnd rsl seen hlen,
   pickImage_fresh, pickImage_reset⟩

def c7img1 : DBImage := { id := "i1", personaId := "p", data := "D1", tags := ["cat"] }

def c7img2 : DBImage := { id := "i2", personaId := "p", data := "D2", tags := ["cat"] }

theorem c7_anti_repetition_witness :
    ((iteratePicks [c7img1, c7img2] [[0], [0]] []).1.length = [[0], [0]].length ∧
     (∀ p ∈ (iteratePicks [c7img1, c7img2] [[0], [0]] []).1,
        p ∈ [c7img1, c7img2] ∧ p.id ∉ ([] : List String)) ∧
     ((iteratePicks [c7img1, c7img2] [[0], [0]] []).1.map (fun i => i.id)).Nodup ∧
     (iteratePicks [c7img1, c7img2] [[0], [0]] []).2
        = [] ++ (iteratePicks [c7img1, c7img2] [[0], [0]] []).1.map (fun i => i.id)) ∧
    (∃ img ∈ [c7img1, c7img2],
       pickImage [c7img1, c7img2] ["i1", "i2"] [0]
         = { sel := some img,
             seen := ((["i1", "i2"] : List String).filter
                 (fun i => !(([c7img1, c7img2].map (fun im => im.id)).contains i)))
               ++ [img.id],
             rands := ([0] : List Nat).tail }) :=
  ⟨c7_anti_repetition.1 [c7img1, c7img2] [[0], [0]] [] (by decide) (by decide),
   c7_anti_repetition.2.2 [c7img1, c7img2] ["i1", "i2"] [0] (by decide) (by decide)⟩

/-! ## Claim C1 -/



/-- `n` repetitions of " a". -/
def aSep : Nat → List Char
  | 0 => []
  | n + 1 => ' ' :: 'a' :: aSep n

/-- The characters of the phrase "a a a ... a" with `n` tokens. -/
def bigChars : Nat → List Char
  | 0 => []
  | n + 1 => 'a' :: aSep n

/-- A trigger phrase of 902 one-letter tokens, used to defeat the
"exact always outranks fuzzy" claim. -/
def bigPhrase : String := String.mk (bigChars 902)

lemma aSep_map (g : Char → Char) (h1 : g 'a' = 'a') (h2 : g ' ' = ' ') :
    ∀ n, (aSep n).map g = aSep n
  | 0 => rfl
  | n + 1 => by
    simp only [aSep, List.map_cons, h1, h2, aSep_map g h1 h2 n]

lemma bigChars_map (g : Char → Char) (h1 : g 'a' = 'a') (h2 : g ' ' = ' ') :
    ∀ n, (bigChars n).map g = bigChars n
  | 0 => rfl
  | n + 1 => by
    simp only [bigChars, List.map_cons, h1, aSep_map g h1 h2 n]

lemma splitOnWsAux_aSep : ∀ n, splitOnWsAux (aSep n) ['a'] = ['a'] :: List.replicate n ['a']
  | 0 => rfl
  | n + 1 => by
    show splitOnWsAux (' ' :: 'a' :: aSep n) ['a'] = _
    rw [splitOnWsAux]
    rw [if_pos (by decide : jsIsWs ' ' = true), if_neg (by decide : ¬(['a'] = ([] : List Char)))]
    rw [show splitOnWsAux ('a' :: aSep n) [] = splitOnWsAux (aSep n) ['a'] by
      rw [splitOnWsAux, if_neg (by decide : ¬(jsIsWs 'a' = true))]]
    rw [splitOnWsAux_aSep n]
    rfl

lemma splitOnWsAux_bigChars (n : Nat) :
    splitOnWsAux (bigChars (n + 1)) [] = List.replicate (n + 1) ['a'] := by
  show splitOnWsAux ('a' :: aSep n) [] = _
  rw [splitOnWsAux, if_neg (by decide : ¬(jsIsWs 'a' = true)), splitOnWsAux_aSep n]
  rfl

lemma tokenize_bigChars (n : Nat) :
    tokenize (String.mk (bigChars (n + 1))) = List.replicate (n + 1) "a" := by
  unfold tokenize
  show (splitOnWsAux (((bigChars (n + 1)).map charLower).map
    (fun c => if punctChars.contains c then ' ' else c)) []).map String.mk = _
  rw [List.map_map,
      bigChars_map _ (by decide) (by decide) (n + 1),
      splitOnWsAux_bigChars n, List.map_replicate]

lemma bigChars_snoc : ∀ n, bigChars (n + 1) ++ [' ', 'a'] = bigChars (n + 2)
  | 0 => rfl
  | n + 1 => by
    show 'a' :: ' ' :: (bigChars (n + 1) ++ [' ', 'a']) = _
    rw [bigChars_snoc n]
    rfl

lemma bigChars_reverse : ∀ n, (bigChars n).reverse = bigChars n
  | 0 => rfl
  | 1 => rfl
  | n + 2 => by
    show ('a' :: ' ' :: bigChars (n + 1)).reverse = _
    rw [List.reverse_cons, List.reverse_cons, bigChars_reverse (n + 1),
        List.append_assoc]
    show bigChars (n + 1) ++ [' ', 'a'] = _
    exact bigChars_snoc n

lemma jsTrim_bigChars (n : Nat) :
    jsTrim (String.mk (bigChars (n + 1))) = String.mk (bigChars (n + 1)) := by
  unfold jsTrim
  show String.mk ((((bigChars (n + 1)).dropWhile jsIsWs).reverse.dropWhile jsIsWs).reverse) = _
  have hdw : (bigChars (n + 1)).dropWhile jsIsWs = bigChars (n + 1) := by
    show ('a' :: aSep n).dropWhile jsIsWs = _
    rw [List.dropWhile_cons_of_neg (by decide)]
    rfl
  rw [hdw, bigChars_reverse (n + 1), hdw, bigChars_reverse (n + 1)]

lemma jsToLower_bigChars (n : Nat) :
    jsToLower (String.mk (bigChars n)) = String.mk (bigChars n) := by
  unfold jsToLower
  show String.mk ((bigChars n).map charLower) = _
  rw [bigChars_map charLower (by decide) (by decide) n]

lemma aSep_length : ∀ n, (aSep n).length = 2 * n
  | 0 => rfl
  | n + 1 => by
    show (aSep n).length + 1 + 1 = 2 * (n + 1)
    rw [aSep_length n]
    omega

lemma isSubstring_length : ∀ (s sub : List Char), isSubstring sub s = true →
    sub.length ≤ s.length
  | [], sub, h => by
    rw [isSubstring] at h
    simp only [List.isEmpty_iff] at h
    simp [h]
  | c :: t, sub, h => by
    rw [isSubstring, Bool.or_eq_true] at h
    rcases h with h | h
    · exact (List.isPrefixOf_iff_prefix.mp h).length_le
    · exact le_trans (isSubstring_length t sub h) (by simp)



lemma bigPhrase_lower_trim : jsTrim (jsToLower bigPhrase) = bigPhrase := by
  rw [show jsToLower bigPhrase = bigPhrase from jsToLower_bigChars 902]
  exact jsTrim_bigChars 901

lemma includes_a_bigPhrase : includes "a" bigPhrase = false := by
  cases h : includes "a" bigPhrase
  · rfl
  · exfalso
    have hlen := isSubstring_length ("a".data) (bigPhrase.data) h
    have hbig : (bigPhrase.data).length = 1803 := by
      show (bigChars 902).length = 1803
      show ('a' :: aSep 901).length = 1803
      rw [List.length_cons, aSep_length]
    have hone : ("a".data).length = 1 := rfl
    rw [hbig, hone] at hlen
    omega

lemma scorePattern_bigPhrase : scorePattern "a" ["a"] bigPhrase = 1002 := by
  unfold scorePattern
  dsimp only
  rw [show tokenize bigPhrase = List.replicate 902 "a" from tokenize_bigChars 901]
  rw [if_neg (show ¬((List.replicate 902 "a").length = 0) by
    rw [List.length_replicate]; omega)]
  rw [bigPhrase_lower_trim, includes_a_bigPhrase]
  rw [if_neg (by simp : ¬(false = true))]
  rw [List.filter_replicate, if_pos (by decide : (["a"] : List String).contains "a" = true)]
  rw [List.length_replicate]
  rw [if_neg (by norm_num : ¬((902 : Nat) ≤ 3))]
  rw [if_pos (by norm_num : ((902 : Nat) : ℚ) / ((902 : Nat) : ℚ) ≥ 3 / 4)]
  norm_num

def c1RuleA : TrainingPair := { id := "A", type := "text", inputPatterns := ["a"] }

def c1RuleB : TrainingPair := { id := "B", type := "text", inputPatterns := [bigPhrase] }

lemma ruleMaxScore_c1B : ruleMaxScore "a" ["a"] c1RuleB = 1002 := by
  unfold ruleMaxScore
  rw [show patternsOf c1RuleB = [bigPhrase] by
    unfold patternsOf c1RuleB
    simp]
  rw [List.foldl_cons, List.foldl_nil]
  dsimp only
  rw [scorePattern_bigPhrase]
  rw [if_pos (by norm_num : (1002 : ℚ) > 0)]

set_option maxRecDepth 10000 in
/-- C1 counterexample: with the message "a", rule A's phrase "a" occurs
verbatim (exact match, score 1001) while rule B's 902-token phrase matches
only fuzzily (it is not a substring), yet rule B scores 1002 - so an exact
match does not always strictly outrank a fuzzy match. -/
theorem c1_counterexample :
    includes (jsTrim (jsToLower "a")) (jsTrim (jsToLower "a")) = true ∧
    tokenize "a" ≠ [] ∧
    includes (jsTrim (jsToLower "a")) (jsTrim (jsToLower bigPhrase)) = false ∧
    ruleMaxScore (jsTrim (jsToLower "a")) (tokenize "a") c1RuleA = 1001 ∧
    ruleMaxScore (jsTrim (jsToLower "a")) (tokenize "a") c1RuleB = 1002 ∧
    ¬(ruleMaxScore (jsTrim (jsToLower "a")) (tokenize "a") c1RuleB
        < ruleMaxScore (jsTrim (jsToLower "a")) (tokenize "a") c1RuleA) := by
  have hmsg : jsTrim (jsToLower "a") = "a" := by with_unfolding_all rfl
  have htok : tokenize "a" = ["a"] := by with_unfolding_all rfl
  have hA : ruleMaxScore "a" ["a"] c1RuleA = 1001 := by with_unfolding_all decide
  refine ⟨by with_unfolding_all decide, by with_unfolding_all decide, ?_, ?_, ?_, ?_⟩
  · rw [hmsg, bigPhrase_lower_trim]
    exact includes_a_bigPhrase
  · rw [hmsg, htok]
    exact hA
  · rw [hmsg, htok]
    exact ruleMaxScore_c1B
  · rw [hmsg, htok, hA, ruleMaxScore_c1B]
    norm_num



lemma foldl_score_mono (lowerMsg : String) (userTokens : List String) :
    ∀ (l : List String) (acc : ℚ),
      acc ≤ l.foldl (fun m p =>
        let s := scorePattern lowerMsg userTokens p; if s > m then s else m) acc
  | [], _ => le_refl _
  | p :: rest, acc => by
    rw [List.foldl_cons]
    refine le_trans ?_ (foldl_score_mono lowerMsg userTokens rest _)
    dsimp only
    split
    · exact le_of_lt (by assumption)
    · exact le_refl _

lemma foldl_score_ge_mem (lowerMsg : String) (userTokens : List String) :
    ∀ (l : List String) (acc : ℚ) (p : String), p ∈ l →
      scorePattern lowerMsg userTokens p ≤ l.foldl (fun m q =>
        let s := scorePattern lowerMsg userTokens q; if s > m then s else m) acc
  | [], _, p, hp => absurd hp (List.not_mem_nil p)
  | q :: rest, acc, p, hp => by
    rw [List.foldl_cons]
    rcases List.mem_cons.mp hp with rfl | hmem
    · refine le_trans ?_ (foldl_score_mono lowerMsg userTokens rest _)
      dsimp only
      split
      · exact le_refl _
      · exact le_of_not_lt (by assumption)
    · exact foldl_score_ge_mem lowerMsg userTokens rest _ p hmem

lemma foldl_score_le (lowerMsg : String) (userTokens : List String) (b : ℚ) :
    ∀ (l : List String) (acc : ℚ), acc ≤ b →
      (∀ p ∈ l, scorePattern lowerMsg userTokens p ≤ b) →
      l.foldl (fun m q =>
        let s := scorePattern lowerMsg userTokens q; if s > m then s else m) acc ≤ b
  | [], acc, hacc, _ => hacc
  | q :: rest, acc, hacc, hall => by
    rw [List.foldl_cons]
    refine foldl_score_le lowerMsg userTokens b rest _ ?_
      (fun p hp => hall p (List.mem_cons_of_mem q hp))
    dsimp only
    split
    · exact hall q (List.mem_cons_self ..)
    · exact hacc

lemma scorePattern_exact (lowerMsg : String) (userTokens : List String) (p : String)
    (htok : tokenize p ≠ [])
    (hinc : includes lowerMsg (jsTrim (jsToLower p)) = true) :
    1001 ≤ scorePattern lowerMsg userTokens p := by
  unfold scorePattern
  dsimp only
  rw [if_neg (by simpa using htok), if_pos hinc]
  have h1 : 1 ≤ (tokenize p).length := List.length_pos.mpr htok
  have : (1 : ℚ) ≤ ((tokenize p).length : ℚ) := by exact_mod_cast h1
  linarith

lemma scorePattern_fuzzy_le (lowerMsg : String) (userTokens : List String) (p : String)
    (hinc : includes lowerMsg (jsTrim (jsToLower p)) = false) :
    scorePattern lowerMsg userTokens p ≤ 100 + ((tokenize p).length : ℚ) := by
  unfold scorePattern
  dsimp only
  split
  · positivity
  · rename_i hlen0
    rw [hinc]
    rw [if_neg (by simp : ¬(false = true))]
    have hm : ((tokenize p).filter (fun t => userTokens.contains t)).length
        ≤ (tokenize p).length := List.length_filter_le _ _
    have hmq : (((tokenize p).filter (fun t => userTokens.contains t)).length : ℚ)
        ≤ ((tokenize p).length : ℚ) := by exact_mod_cast hm
    have hnpos : (0 : ℚ) < ((tokenize p).length : ℚ) := by
      have h1 : 0 < (tokenize p).length := Nat.pos_of_ne_zero hlen0
      exact_mod_cast h1
    have hcov : (((tokenize p).filter (fun t => userTokens.contains t)).length : ℚ)
        / ((tokenize p).length : ℚ) ≤ 1 := by
      rw [div_le_one hnpos]
      exact hmq
    have h100 : (((tokenize p).filter (fun t => userTokens.contains t)).length : ℚ)
        / ((tokenize p).length : ℚ) * 100 ≤ 100 := by nlinarith
    split <;> split
    all_goals linarith

/-- C1 as amended: an exact (verbatim substring) match always strictly outranks
a rule matched only fuzzily, provided every phrase of the fuzzy rule has at
most 900 tokens (a fuzzy phrase with 902 or more matched tokens can score
above 1001, as the counterexample shows). -/
theorem c1_exact_precedence_amended (lowerMsg : String) (userTokens : List String)
    (ruleA ruleB : TrainingPair)
    (hA : ∃ p ∈ patternsOf ruleA,
      includes lowerMsg (jsTrim (jsToLower p)) = true ∧ tokenize p ≠ [])
    (hB : ∀ p ∈ patternsOf ruleB, includes lowerMsg (jsTrim (jsToLower p)) = false)
    (hBlen : ∀ p ∈ patternsOf ruleB, (tokenize p).length ≤ 900) :
    ruleMaxScore lowerMsg userTokens ruleB < ruleMaxScore lowerMsg userTokens ruleA := by
  obtain ⟨p, hpmem, hpinc, hptok⟩ := hA
  have hAge : 1001 ≤ ruleMaxScore lowerMsg userTokens ruleA :=
    le_trans (scorePattern_exact lowerMsg userTokens p hptok hpinc)
      (foldl_score_ge_mem lowerMsg userTokens (patternsOf ruleA) 0 p hpmem)
  have hBle : ruleMaxScore lowerMsg userTokens ruleB ≤ 1000 := by
    refine foldl_score_le lowerMsg userTokens 1000 (patternsOf ruleB) 0 (by norm_num) ?_
    intro q hq
    refine le_trans (scorePattern_fuzzy_le lowerMsg userTokens q (hB q hq)) ?_
    have := hBlen q hq
    have hq900 : ((tokenize q).length : ℚ) ≤ 900 := by exact_mod_cast this
    linarith
  linarith

def c1SmallB : TrainingPair := { id := "B2", type := "text", inputPatterns := ["b c"] }

theorem c1_exact_precedence_witness :
    ruleMaxScore "a" ["a", "b", "c"] c1SmallB < ruleMaxScore "a" ["a", "b", "c"] c1RuleA :=
  c1_exact_precedence_amended "a" ["a", "b", "c"] c1RuleA c1SmallB
    (by with_unfolding_all decide) (by with_unfolding_all decide)
    (by with_unfolding_all decide)

/-! ## Claim C4 -/



/-- The firing condition of a logic rule, read off `logicStep`. -/
def logicFires (st : List (String × Nat)) (lr : LogicRule) : Prop :=
  (if lr.monitor = "user_says_keyword" then
    0 < lookupCount st ("kw_" ++ jsToLower lr.target) ∧
      lr.threshold ≤ lookupCount st ("kw_" ++ jsToLower lr.target)
  else if lr.monitor = "bot_sends_imagetag" then
    0 < lookupCount st ("tag_" ++ jsToLower lr.target) ∧
      lr.threshold ≤ lookupCount st ("tag_" ++ jsToLower lr.target)
  else False)

lemma logicStep_nofire (pid : String)
    (searchFn : String → List String → Except Unit (List DBImage))
    (ls : LogicState) (r : LogicRule) (h : ¬ logicFires ls.counts r) :
    logicStep pid searchFn ls r = ls := by
  unfold logicFires at h
  unfold logicStep
  by_cases h1 : r.monitor = "user_says_keyword"
  · rw [if_pos h1] at h ⊢
    dsimp only
    rw [if_neg h]
  · rw [if_neg h1] at h ⊢
    by_cases h2 : r.monitor = "bot_sends_imagetag"
    · rw [if_pos h2] at h ⊢
      dsimp only
      rw [if_neg h]
    · rw [if_neg h2] at h ⊢
      dsimp only
      rw [if_neg (by simp)]

lemma foldl_logicStep_nofire (pid : String)
    (searchFn : String → List String → Except Unit (List DBImage)) :
    ∀ (rules : List LogicRule) (ls : LogicState),
      (∀ r ∈ rules, ¬ logicFires ls.counts r) →
      rules.foldl (logicStep pid searchFn) ls = ls
  | [], _, _ => rfl
  | r :: rest, ls, h => by
    rw [List.foldl_cons, logicStep_nofire pid searchFn ls r (h r (List.mem_cons_self ..))]
    exact foldl_logicStep_nofire pid searchFn rest ls
      (fun q hq => h q (List.mem_cons_of_mem r hq))

lemma foldl_considerRule_nomatch (lowerMsg : String) (userTokens : List String) :
    ∀ (rules : List TrainingPair) (b : BestMatches),
      (∀ r ∈ rules, ruleMaxScore lowerMsg userTokens r = 0) →
      rules.foldl (considerRule lowerMsg userTokens) b = b
  | [], _, _ => rfl
  | r :: rest, b, h => by
    rw [List.foldl_cons]
    rw [show considerRule lowerMsg userTokens b r = b by
      unfold considerRule
      rw [h r (List.mem_cons_self ..)]
      rw [if_neg (by norm_num)]]
    exact foldl_considerRule_nomatch lowerMsg userTokens rest b
      (fun q hq => h q (List.mem_cons_of_mem r hq))

lemma phase2_nomatch (pid : String)
    (searchFn : String → List String → Except Unit (List DBImage))
    (currentPhase lowerMsg : String) (userTokens : List String)
    (customTraining : List TrainingPair) (lastSent : List String) (rands : List Nat)
    (h : ∀ r ∈ customTraining, ruleMaxScore lowerMsg userTokens r = 0) :
    phase2 pid searchFn currentPhase lowerMsg userTokens customTraining lastSent rands
      = { responseText := "", responseImage := none, responseAudio := none,
          lastSentImageIds := lastSent, eventTags := [], rands := rands } := by
  unfold phase2
  dsimp only
  split
  · rfl
  · rw [show findBestMatches lowerMsg userTokens customTraining = ⟨none, none, none⟩ from
      foldl_considerRule_nomatch lowerMsg userTokens customTraining ⟨none, none, none⟩ h]



lemma isSubstring_refl : ∀ (l : List Char), isSubstring l l = true
  | [] => rfl
  | c :: t => by
    rw [isSubstring, Bool.or_eq_true]
    left
    rw [List.isPrefixOf_iff_prefix]

lemma c4_teachme (persona : PersonaProfile) (M : String) (hist : List Message)
    (hour : Nat) (nowId : String)
    (searchFn : String → List String → Except Unit (List DBImage)) (rands : List Nat)
    (hpend : persona.memory.waitingForDefinition = none)
    (hnomatch : ∀ r ∈ persona.neuralMap.customTraining,
      ruleMaxScore (jsTrim (jsToLower M)) (tokenize M) r = 0)
    (hnofire : ∀ lr ∈ persona.neuralMap.logicRules,
      ¬ logicFires (updateCounts persona.memory.logicCounts (tokenize M) []) lr)
    (hgreet : greetingTest (jsTrim (jsToLower M)) = false)
    (hgood : goodTimeTest (jsTrim (jsToLower M)) = false)
    (hhow : howAreYouTest (jsTrim (jsToLower M)) = false) :
    (processOfflineMessage persona M MessageType.text hist hour nowId searchFn
        rands).text = askPrompt ∧
    (processOfflineMessage persona M MessageType.text hist hour nowId searchFn
        rands).updatedPersona.memory.waitingForDefinition = some M ∧
    (processOfflineMessage persona M MessageType.text hist hour nowId searchFn
        rands).updatedPersona.neuralMap = persona.neuralMap := by
  unfold processOfflineMessage
  rw [if_neg (by decide : ¬(MessageType.text = MessageType.audio))]
  rw [if_neg (by simp [hpend])]
  dsimp only
  rw [phase2_nomatch persona.id searchFn (getCurrentTimePhase hour)
    (jsTrim (jsToLower M)) (tokenize M) persona.neuralMap.customTraining
    persona.memory.lastSentImageIds rands hnomatch]
  unfold applyLogic
  dsimp only
  by_cases hle : persona.neuralMap.logicRules.isEmpty
  · rw [if_pos hle]
    unfold finishTurn
    dsimp only
    rw [if_pos ⟨rfl, rfl, rfl⟩]
    rw [if_neg (by simp [hgreet]), if_neg (by simp [hgood]), if_neg (by simp [hhow])]
    exact ⟨rfl, rfl, rfl⟩
  · rw [if_neg hle]
    unfold runLogic
    dsimp only
    rw [foldl_logicStep_nofire persona.id searchFn persona.neuralMap.logicRules _ hnofire]
    unfold finishTurn
    dsimp only
    rw [if_pos ⟨rfl, rfl, rfl⟩]
    rw [if_neg (by simp [hgreet]), if_neg (by simp [hgood]), if_neg (by simp [hhow])]
    exact ⟨rfl, rfl, rfl⟩



lemma c4_learn (persona : PersonaProfile) (M R : String) (hist : List Message)
    (hour : Nat) (nowId : String)
    (searchFn : String → List String → Except Unit (List DBImage)) (rands : List Nat)
    (hpend : persona.memory.waitingForDefinition = some M) (hM : M ≠ "") :
    (processOfflineMessage persona R MessageType.text hist hour nowId searchFn
        rands).text = thankYouMsg ∧
    (processOfflineMessage persona R MessageType.text hist hour nowId searchFn
        rands).updatedPersona.neuralMap.customTraining
      = persona.neuralMap.customTraining ++
        [{ id := nowId, type := "text", inputPattern := M, inputPatterns := [M],
           responses := [{ text := R, timeOfDay := "any" }] }] ∧
    (processOfflineMessage persona R MessageType.text hist hour nowId searchFn
        rands).updatedPersona.memory.waitingForDefinition = none ∧
    (processOfflineMessage persona R MessageType.text hist hour nowId searchFn
        rands).updatedPersona.neuralMap.logicRules = persona.neuralMap.logicRules ∧
    (processOfflineMessage persona R MessageType.text hist hour nowId searchFn
        rands).updatedPersona.neuralMap.coreIdentity = persona.neuralMap.coreIdentity := by
  unfold processOfflineMessage
  rw [if_neg (by decide : ¬(MessageType.text = MessageType.audio))]
  rw [if_pos (by simp [hpend, hM])]
  simp [hpend]

lemma c4_relearned_score (M R nowId : String) (htok : tokenize M ≠ []) :
    1000 ≤ ruleMaxScore (jsTrim (jsToLower M)) (tokenize M)
      { id := nowId, type := "text", inputPattern := M, inputPatterns := [M],
        responses := [{ text := R, timeOfDay := "any" }] } := by
  have hpat : patternsOf
      { id := nowId, type := "text", inputPattern := M, inputPatterns := [M],
        responses := [{ text := R, timeOfDay := "any" }] } = [M] := by
    unfold patternsOf
    rw [if_pos (by simp)]
  have hscore : scorePattern (jsTrim (jsToLower M)) (tokenize M) M
      = 1000 + ((tokenize M).length : ℚ) := by
    unfold scorePattern
    dsimp only
    rw [if_neg (by simpa using htok),
        if_pos (show includes (jsTrim (jsToLower M)) (jsTrim (jsToLower M)) = true from
          isSubstring_refl (jsTrim (jsToLower M)).data)]
  have hlen : 1 ≤ (tokenize M).length := List.length_pos.mpr htok
  have hlenq : (1 : ℚ) ≤ ((tokenize M).length : ℚ) := by exact_mod_cast hlen
  unfold ruleMaxScore
  rw [hpat, List.foldl_cons, List.foldl_nil]
  dsimp only
  rw [hscore]
  rw [if_pos (by linarith : (1000 : ℚ) + ((tokenize M).length : ℚ) > 0)]
  linarith



def c4Persona : PersonaProfile :=
  { id := "p4", name := "Sam",
    neuralMap := { coreIdentity := { name := "Sam" } }, memory := {} }

set_option maxRecDepth 40000 in
/-- C4 counterexample: for the token-less message "!!!" the round trip does
create the rule (sole trigger "!!!", sole response "say wow"), but on a
subsequent send of "!!!" that rule scores 0, not at least 1000: its pattern
tokenizes to the empty list and is skipped by the matcher. -/
theorem c4_counterexample :
    (processOfflineMessage c4Persona "!!!" MessageType.text [] 10 "1" emptyStore
        [0]).text = askPrompt ∧
    (processOfflineMessage c4Persona "!!!" MessageType.text [] 10 "1" emptyStore
        [0]).updatedPersona.memory.waitingForDefinition = some "!!!" ∧
    (processOfflineMessage
        (processOfflineMessage c4Persona "!!!" MessageType.text [] 10 "1" emptyStore
          [0]).updatedPersona
        "say wow" MessageType.text [] 10 "2" emptyStore
        [0]).updatedPersona.neuralMap.customTraining
      = [{ id := "2", type := "text", inputPattern := "!!!", inputPatterns := ["!!!"],
           responses := [{ text := "say wow", timeOfDay := "any" }] }] ∧
    tokenize "!!!" = [] ∧
    ruleMaxScore (jsTrim (jsToLower "!!!")) (tokenize "!!!")
      { id := "2", type := "text", inputPattern := "!!!", inputPatterns := ["!!!"],
        responses := [{ text := "say wow", timeOfDay := "any" }] } = 0 := by
  with_unfolding_all decide

/-- C4 as amended: for a message `M` with at least one token that matches no
trained rule, fires no logic rule and matches no fallback intent classifier,
the engine returns the fixed teach-me prompt and records
`waitingForDefinition = M` (rules unchanged); the next message `R` then appends
exactly one new text rule with sole trigger `M` and sole response `R`, clears
the flag and returns the fixed acknowledgment pre-empting everything else; and
the new rule thereafter scores at least 1000 (exact match) on a resend of `M`. -/
theorem c4_roundtrip_amended :
    (∀ (persona : PersonaProfile) (M : String) (hist : List Message) (hour : Nat)
        (nowId : String) (searchFn : String → List String → Except Unit (List DBImage))
        (rands : List Nat),
      persona.memory.waitingForDefinition = none →
      (∀ r ∈ persona.neuralMap.customTraining,
        ruleMaxScore (jsTrim (jsToLower M)) (tokenize M) r = 0) →
      (∀ lr ∈ persona.neuralMap.logicRules,
        ¬ logicFires (updateCounts persona.memory.logicCounts (tokenize M) []) lr) →
      greetingTest (jsTrim (jsToLower M)) = false →
      goodTimeTest (jsTrim (jsToLower M)) = false →
      howAreYouTest (jsTrim (jsToLower M)) = false →
      (processOfflineMessage persona M MessageType.text hist hour nowId searchFn
          rands).text = askPrompt ∧
      (processOfflineMessage persona M MessageType.text hist hour nowId searchFn
          rands).updatedPersona.memory.waitingForDefinition = some M ∧
      (processOfflineMessage persona M MessageType.text hist hour nowId searchFn
          rands).updatedPersona.neuralMap = persona.neuralMap) ∧
    (∀ (persona : PersonaProfile) (M R : String) (hist : List Message) (hour : Nat)
        (nowId : String) (searchFn : String → List String → Except Unit (List DBImage))
        (rands : List Nat),
      persona.memory.waitingForDefinition = some M → M ≠ "" →
      (processOfflineMessage persona R MessageType.text hist hour nowId searchFn
          rands).text = thankYouMsg ∧
      (processOfflineMessage persona R MessageType.text hist hour nowId searchFn
          rands).updatedPersona.neuralMap.customTraining
        = persona.neuralMap.customTraining ++
          [{ id := nowId, type := "text", inputPattern := M, inputPatterns := [M],
             responses := [{ text := R, timeOfDay := "any" }] }] ∧
      (processOfflineMessage persona R MessageType.text hist hour nowId searchFn
          rands).updatedPersona.memory.waitingForDefinition = none ∧
      (processOfflineMessage persona R MessageType.text hist hour nowId searchFn
          rands).updatedPersona.neuralMap.logicRules = persona.neuralMap.logicRules ∧
      (processOfflineMessage persona R MessageType.text hist hour nowId searchFn
          rands).updatedPersona.neuralMap.coreIdentity
        = persona.neuralMap.coreIdentity) ∧
    (∀ (M R nowId : String), tokenize M ≠ [] →
      1000 ≤ ruleMaxScore (jsTrim (jsToLower M)) (tokenize M)
        { id := nowId, type := "text", inputPattern := M, inputPatterns := [M],
          responses := [{ text := R, timeOfDay := "any" }] }) :=
  ⟨fun persona M hist hour nowId searchFn rands hpend hnomatch hnofire hg1 hg2 hg3 =>
      c4_teachme persona M hist hour nowId searchFn rands hpend hnomatch hnofire
        hg1 hg2 hg3,
   fun persona M R hist hour nowId searchFn rands hpend hM =>
      c4_learn persona M R hist hour nowId searchFn rands hpend hM,
   fun M R nowId htok => c4_relearned_score M R nowId htok⟩

def c4wPersona2 : PersonaProfile :=
  { id := "p4", name := "Sam",
    neuralMap := { coreIdentity := { name := "Sam" } },
    memory := { waitingForDefinition := some "wibble wobble" } }

set_option maxRecDepth 40000 in
theorem c4_roundtrip_amended_witness :
    ((processOfflineMessage c4Persona "wibble wobble" MessageType.text [] 10 "1"
        emptyStore [0]).text = askPrompt ∧
     (processOfflineMessage c4Persona "wibble wobble" MessageType.text [] 10 "1"
        emptyStore [0]).updatedPersona.memory.waitingForDefinition
       = some "wibble wobble" ∧
     (processOfflineMessage c4Persona "wibble wobble" MessageType.text [] 10 "1"
        emptyStore [0]).updatedPersona.neuralMap = c4Persona.neuralMap) ∧
    ((processOfflineMessage c4wPersona2 "say wub" MessageType.text [] 10 "9"
        emptyStore [0]).text = thankYouMsg ∧
     (processOfflineMessage c4wPersona2 "say wub" MessageType.text [] 10 "9"
        emptyStore [0]).updatedPersona.neuralMap.customTraining
       = c4wPersona2.neuralMap.customTraining ++
         [{ id := "9", type := "text", inputPattern := "wibble wobble",
            inputPatterns := ["wibble wobble"],
            responses := [{ text := "say wub", timeOfDay := "any" }] }] ∧
     (processOfflineMessage c4wPersona2 "say wub" MessageType.text [] 10 "9"
        emptyStore [0]).updatedPersona.memory.waitingForDefinition = none ∧
     (processOfflineMessage c4wPersona2 "say wub" MessageType.text [] 10 "9"
        emptyStore [0]).updatedPersona.neuralMap.logicRules
       = c4wPersona2.neuralMap.logicRules ∧
     (processOfflineMessage c4wPersona2 "say wub" MessageType.text [] 10 "9"
        emptyStore [0]).updatedPersona.neuralMap.coreIdentity
       = c4wPersona2.neuralMap.coreIdentity) ∧
    (1000 ≤ ruleMaxScore (jsTrim (jsToLower "wibble wobble")) (tokenize "wibble wobble")
      { id := "9", type := "text", inputPattern := "wibble wobble",
        inputPatterns := ["wibble wobble"],
        responses := [{ text := "say wub", timeOfDay := "any" }] }) :=
  ⟨c4_roundtrip_amended.1 c4Persona "wibble wobble" [] 10 "1" emptyStore [0] rfl
      (by decide) (by intro lr hlr; simp [c4Persona] at hlr)
      (by with_unfolding_all decide)
      (by with_unfolding_all decide) (by with_unfolding_all decide),
   c4_roundtrip_amended.2.1 c4wPersona2 "wibble wobble" "say wub" [] 10 "9" emptyStore
      [0] rfl (by decide),
   c4_roundtrip_amended.2.2 "wibble wobble" "say wub" "9"
      (by with_unfolding_all decide)⟩

end SoulSync
